import Mathlib

/-!
Verification of the session / recovery-token core of a temporary-email chat
bot (`bot.py`).

Python strings are modelled as lists of Unicode code points (`List Nat`),
byte strings as lists of naturals below 256.  The development embeds:

* the recovery-token codec: `json.dumps` / `json.loads` on the fragment of
  JSON the program produces and consumes (objects with string keys and
  string values, and bare strings), UTF-8, and URL-safe base64 as used by
  `encode_recovery_token` / `decode_recovery_token`;
* the session store `ACTIVE_SESSIONS` (a dict from chat-user id to the
  decoded session value);
* the command handlers `repair`, `new_email` and `read`; network and chat
  transport outcomes enter as oracle parameters, and the provider / chat
  operations performed by `read` are recorded as an event trace;
* the OTP detector `detect_otp` built on the Python regex `\b\d{4,8}\b`
  (character classes are modelled on ASCII text, where Python's
  Unicode-aware `\d` and `\w` coincide with the ASCII classes).
-/

set_option maxHeartbeats 1000000
set_option maxRecDepth 4096

deriving instance DecidableEq for Except

/-- Python strings are sequences of Unicode code points. -/
abbrev PyStr := List Nat

/-- Code points of a Lean string literal (used for concrete inputs). -/
def ascii (s : String) : PyStr := s.data.map Char.toNat

/-- A code point a Python string can UTF-8-encode: a Unicode scalar value
(below 0x110000 and not a surrogate). -/
def ValidCp (c : Nat) : Prop := c < 0x110000 ∧ ¬(0xD800 ≤ c ∧ c ≤ 0xDFFF)

instance (c : Nat) : Decidable (ValidCp c) := by
  unfold ValidCp; infer_instance

/-- Every code point of the string is a Unicode scalar value. -/
def ValidStr (s : PyStr) : Prop := ∀ c ∈ s, ValidCp c

instance (s : PyStr) : Decidable (ValidStr s) := by
  unfold ValidStr; infer_instance

/-! ## URL-safe base64 (`base64.urlsafe_b64encode` / `urlsafe_b64decode`)

The URL-safe alphabet replaces `+` and `/` of standard base64 by `-` and
`_`; Python keeps the `=` padding characters (code 61).  On decoding,
Python discards characters outside the alphabet before the length check
(`validate=False`), then fails unless the remaining length is a multiple
of four; `=` is accepted as final padding. -/

/-- Character (code point) of a six-bit group, URL-safe alphabet. -/
def sextetChar (n : Nat) : Nat :=
  if n < 26 then 65 + n
  else if n < 52 then 97 + (n - 26)
  else if n < 62 then 48 + (n - 52)
  else if n = 62 then 45
  else 95

/-- Six-bit value of an alphabet character; `none` off the alphabet. -/
def sextetVal (c : Nat) : Option Nat :=
  if 65 ≤ c ∧ c ≤ 90 then some (c - 65)
  else if 97 ≤ c ∧ c ≤ 122 then some (c - 97 + 26)
  else if 48 ≤ c ∧ c ≤ 57 then some (c - 48 + 52)
  else if c = 45 then some 62
  else if c = 95 then some 63
  else none

/-- Membership in the URL-safe base64 alphabet (`=` is not a member). -/
def isB64Alpha (c : Nat) : Bool := (sextetVal c).isSome

/-- `base64.urlsafe_b64encode` on a byte string. -/
def b64encode : List Nat → List Nat
  | [] => []
  | [b0] => [sextetChar (b0 / 4), sextetChar (b0 % 4 * 16), 61, 61]
  | [b0, b1] => [sextetChar (b0 / 4), sextetChar (b0 % 4 * 16 + b1 / 16),
      sextetChar (b1 % 16 * 4), 61]
  | b0 :: b1 :: b2 :: rest =>
      sextetChar (b0 / 4) :: sextetChar (b0 % 4 * 16 + b1 / 16) ::
      sextetChar (b1 % 16 * 4 + b2 / 64) :: sextetChar (b2 % 64) ::
      b64encode rest

/-- Decode the already-filtered character stream in groups of four,
accepting `=` only as final padding. -/
def decodeQuads : List Nat → Except Unit (List Nat)
  | [] => .ok []
  | c0 :: c1 :: c2 :: c3 :: rest =>
    match sextetVal c0, sextetVal c1 with
    | some s0, some s1 =>
      if c2 = 61 then
        if c3 = 61 ∧ rest = [] then .ok [s0 * 4 + s1 / 16] else .error ()
      else
        match sextetVal c2 with
        | some s2 =>
          if c3 = 61 then
            if rest = [] then .ok [s0 * 4 + s1 / 16, s1 % 16 * 16 + s2 / 4]
            else .error ()
          else
            match sextetVal c3 with
            | some s3 =>
              (decodeQuads rest).map
                (fun bs => (s0 * 4 + s1 / 16) :: (s1 % 16 * 16 + s2 / 4) ::
                  (s2 % 4 * 64 + s3) :: bs)
            | none => .error ()
        | none => .error ()
    | _, _ => .error ()
  | _ => .error ()

/-- `base64.urlsafe_b64decode`: discard foreign characters, then decode. -/
def b64decode (tok : List Nat) : Except Unit (List Nat) :=
  decodeQuads (tok.filter (fun c => isB64Alpha c || c == 61))

/-! ## UTF-8 (`str.encode()` / `bytes.decode()`)

`str.encode()` is standard UTF-8; `bytes.decode()` is the strict UTF-8
decoder (continuation-byte checks, no overlongs, no surrogates). -/

/-- UTF-8 bytes of one code point. -/
def utf8EncodeCp (c : Nat) : List Nat :=
  if c < 0x80 then [c]
  else if c < 0x800 then [0xC0 + c / 64, 0x80 + c % 64]
  else if c < 0x10000 then [0xE0 + c / 4096, 0x80 + c / 64 % 64, 0x80 + c % 64]
  else [0xF0 + c / 0x40000, 0x80 + c / 4096 % 64, 0x80 + c / 64 % 64,
    0x80 + c % 64]

/-- `str.encode()` on a whole string. -/
def utf8Encode (s : PyStr) : List Nat := s.flatMap utf8EncodeCp

/-- UTF-8 continuation byte. -/
def isCont (b : Nat) : Bool := 0x80 ≤ b && b ≤ 0xBF

/-- One code point of strict UTF-8: the decoded scalar and the remaining
bytes (`none` on any ill-formed prefix: bad leading byte, bad
continuation byte, overlong form, surrogate, out of range). -/
def utf8DecodeOne : List Nat → Option (Nat × List Nat)
  | [] => none
  | b :: rest =>
    if b < 0x80 then some (b, rest)
    else if 0xC2 ≤ b ∧ b ≤ 0xDF then
      match rest with
      | c1 :: rest2 =>
        if isCont c1 then some ((b - 0xC0) * 64 + (c1 - 0x80), rest2) else none
      | [] => none
    else if 0xE0 ≤ b ∧ b ≤ 0xEF then
      match rest with
      | c1 :: c2 :: rest2 =>
        if (if b = 0xE0 then 0xA0 ≤ c1 && c1 ≤ 0xBF
            else if b = 0xED then 0x80 ≤ c1 && c1 ≤ 0x9F
            else isCont c1) && isCont c2 then
          some ((b - 0xE0) * 4096 + (c1 - 0x80) * 64 + (c2 - 0x80), rest2)
        else none
      | _ => none
    else if 0xF0 ≤ b ∧ b ≤ 0xF4 then
      match rest with
      | c1 :: c2 :: c3 :: rest2 =>
        if (if b = 0xF0 then 0x90 ≤ c1 && c1 ≤ 0xBF
            else if b = 0xF4 then 0x80 ≤ c1 && c1 ≤ 0x8F
            else isCont c1) && isCont c2 && isCont c3 then
          some ((b - 0xF0) * 0x40000 + (c1 - 0x80) * 4096 +
            (c2 - 0x80) * 64 + (c3 - 0x80), rest2)
        else none
      | _ => none
    else none

/-- Decode a whole byte string code point by code point.  The fuel only
bounds recursion depth; each step consumes at least one byte, so the
`length + 1` fuel `utf8Decode` passes never runs out. -/
def utf8DecodeLoop : Nat → List Nat → Except Unit (List Nat)
  | _, [] => .ok []
  | 0, _ :: _ => .error ()
  | fuel + 1, b :: bs =>
    match utf8DecodeOne (b :: bs) with
    | none => .error ()
    | some (cp, rest) => (utf8DecodeLoop fuel rest).map (fun t => cp :: t)

/-- Strict UTF-8 decoding, `bytes.decode()`. -/
def utf8Decode (bs : List Nat) : Except Unit (List Nat) :=
  utf8DecodeLoop (bs.length + 1) bs

/-! ## JSON values and `json.dumps`

`bot.py` only ever serialises flat dicts with string keys and string
values, and the `repair` validation only distinguishes decoded dicts and
decoded strings (`k in data` is key lookup on a dict and substring test on
a string).  The model therefore covers this fragment of JSON: bare strings
and flat objects with string keys and values; other JSON shapes are out of
the modelled fragment and decode to an error here. -/

/-- JSON values of the fragment the program exercises. -/
inductive Json where
  | jstr (s : PyStr)
  | jobj (kvs : List (PyStr × PyStr))
deriving DecidableEq

/-- Lowercase hexadecimal digit character of a nibble. -/
def hexDigitChar (d : Nat) : Nat := if d < 10 then 48 + d else 87 + d

/-- The six characters of a `\uXXXX` escape for `v < 0x10000`. -/
def escHex4 (v : Nat) : List Nat :=
  [92, 117, hexDigitChar (v / 4096 % 16), hexDigitChar (v / 256 % 16),
   hexDigitChar (v / 16 % 16), hexDigitChar (v % 16)]

/-- `json.dumps` escaping of one code point (`ensure_ascii=True`): the
named escapes, `\uXXXX` for other controls and all non-ASCII, surrogate
pairs above 0xFFFF, and the character itself for printable ASCII. -/
def escapeCp (c : Nat) : List Nat :=
  if c = 92 then [92, 92]
  else if c = 34 then [92, 34]
  else if c = 8 then [92, 98]
  else if c = 9 then [92, 116]
  else if c = 10 then [92, 110]
  else if c = 12 then [92, 102]
  else if c = 13 then [92, 114]
  else if c < 32 then escHex4 c
  else if c ≤ 126 then [c]
  else if c < 0x10000 then escHex4 c
  else escHex4 (0xD800 + (c - 0x10000) / 0x400) ++
    escHex4 (0xDC00 + (c - 0x10000) % 0x400)

/-- `json.dumps` escaping of a whole string (without the quotes). -/
def escapeStr (s : PyStr) : List Nat := s.flatMap escapeCp

/-- A serialised JSON string literal: quote, escaped body, quote. -/
def strLit (s : PyStr) : List Nat := 34 :: (escapeStr s ++ [34])

/-- Serialised object members, joined Python-style with `", "` after a
`": "` separator (the `json.dumps` defaults). -/
def dumpMembers : List (PyStr × PyStr) → List Nat
  | [] => []
  | (k, v) :: rest =>
    strLit k ++ [58, 32] ++ strLit v ++
      (if rest.isEmpty then [] else [44, 32]) ++ dumpMembers rest

/-- `json.dumps` on the modelled fragment. -/
def jsonDumps : Json → List Nat
  | .jstr s => strLit s
  | .jobj kvs => 123 :: (dumpMembers kvs ++ [125])

/-! ## `json.loads` on the modelled fragment

A recursive-descent parser over the code points of the decoded text:
JSON whitespace, string literals with the full escape grammar of the
Python scanner (named escapes, `\uXXXX`, surrogate-pair combination,
lone surrogates kept as Python keeps them, raw control characters
rejected), and flat objects whose member values are strings. -/

/-- JSON whitespace (space, tab, line feed, carriage return). -/
def isWsCp (c : Nat) : Bool := c == 32 || c == 9 || c == 10 || c == 13

/-- Skip leading JSON whitespace. -/
def skipWs (l : List Nat) : List Nat := l.dropWhile isWsCp

/-- Hexadecimal digit value of a code point. -/
def hexVal (c : Nat) : Option Nat :=
  if 48 ≤ c ∧ c ≤ 57 then some (c - 48)
  else if 97 ≤ c ∧ c ≤ 102 then some (c - 87)
  else if 65 ≤ c ∧ c ≤ 70 then some (c - 55)
  else none

/-- The combined value of four hexadecimal digit characters. -/
def hex4 (h1 h2 h3 h4 : Nat) : Option Nat :=
  match hexVal h1, hexVal h2, hexVal h3, hexVal h4 with
  | some a, some b, some c, some d => some (a * 4096 + b * 256 + c * 16 + d)
  | _, _, _, _ => none

/-- After a `\uXXXX` escape holding a high surrogate `v`: when the next
two characters are `\u`, the following four characters must be valid
hexadecimal; a low surrogate combines into one astral code point, any
other value leaves the lone `v` and continues in front of the second
escape, as the Python scanner does. -/
def parsePairTail (v : Nat) : List Nat → Option (Nat × List Nat)
  | q1 :: q2 :: rest5 =>
    if q1 = 92 ∧ q2 = 117 then
      match rest5 with
      | g1 :: g2 :: g3 :: g4 :: rest4 =>
        match hex4 g1 g2 g3 g4 with
        | none => none
        | some w =>
          if 0xDC00 ≤ w ∧ w < 0xE000 then
            some (0x10000 + (v - 0xD800) * 0x400 + (w - 0xDC00), rest4)
          else some (v, q1 :: q2 :: rest5)
      | _ => none
    else some (v, q1 :: q2 :: rest5)
  | other => some (v, other)

/-- One escape sequence after the backslash: the named escapes and
`\uXXXX` (with surrogate-pair combination); `none` is the scanner
error. -/
def parseEscapeOne : List Nat → Option (Nat × List Nat)
  | [] => none
  | e :: rest =>
    if e = 34 then some (34, rest)
    else if e = 92 then some (92, rest)
    else if e = 47 then some (47, rest)
    else if e = 98 then some (8, rest)
    else if e = 102 then some (12, rest)
    else if e = 110 then some (10, rest)
    else if e = 114 then some (13, rest)
    else if e = 116 then some (9, rest)
    else if e = 117 then
      match rest with
      | h1 :: h2 :: h3 :: h4 :: rest3 =>
        match hex4 h1 h2 h3 h4 with
        | none => none
        | some v =>
          if 0xD800 ≤ v ∧ v < 0xDC00 then parsePairTail v rest3
          else some (v, rest3)
      | _ => none
    else none

/-- Parse the body of a string literal after the opening quote, returning
the decoded string and the input after the closing quote.  The fuel only
bounds recursion depth; every step consumes at least one character, so
the `length + 1` fuel `parseString` passes never runs out. -/
def parseStrBody : Nat → List Nat → Except Unit (PyStr × List Nat)
  | 0, _ => .error ()
  | _, [] => .error ()
  | fuel + 1, c :: rest =>
    if c = 34 then .ok ([], rest)
    else if c = 92 then
      match parseEscapeOne rest with
      | none => .error ()
      | some (cp, rest2) =>
        (parseStrBody fuel rest2).map (fun p => (cp :: p.1, p.2))
    else if c < 32 then .error ()
    else (parseStrBody fuel rest).map (fun p => (c :: p.1, p.2))

/-- Parse a string literal including its opening quote. -/
def parseString : List Nat → Except Unit (PyStr × List Nat)
  | 34 :: rest => parseStrBody (rest.length + 1) rest
  | _ => .error ()

/-- Parse one object member (key, `": "`, string value), returning the
member and the input after the value with whitespace skipped. -/
def parseMemberOne (input : List Nat) : Option ((PyStr × PyStr) × List Nat) :=
  match parseString input with
  | .error _ => none
  | .ok (k, r1) =>
    match skipWs r1 with
    | x :: r3 =>
      if x = 58 then
        match parseString (skipWs r3) with
        | .error _ => none
        | .ok (v, r5) => some ((k, v), skipWs r5)
      else none
    | [] => none

/-- Parse the members of a non-empty object (the input starts at the first
key), consuming the closing brace.  The fuel bounds the number of members;
callers pass the input length, an upper bound. -/
def parseMembers : Nat → List Nat → Except Unit (List (PyStr × PyStr) × List Nat)
  | 0, _ => .error ()
  | fuel + 1, input =>
    match parseMemberOne input with
    | none => .error ()
    | some (kv, rest) =>
      match rest with
      | y :: r7 =>
        if y = 44 then
          (parseMembers fuel (skipWs r7)).map (fun p => (kv :: p.1, p.2))
        else if y = 125 then .ok ([kv], r7)
        else .error ()
      | [] => .error ()

/-- `json.loads` on the modelled fragment: a top-level string or flat
object, with surrounding whitespace, and nothing after the value. -/
def jsonLoads (s : List Nat) : Except Unit Json :=
  match skipWs s with
  | [] => .error ()
  | c :: rest =>
    if c = 34 then
      match parseStrBody (rest.length + 1) rest with
      | .ok (v, r2) => if skipWs r2 = [] then .ok (.jstr v) else .error ()
      | .error _ => .error ()
    else if c = 123 then
      match skipWs rest with
      | [] => .error ()
      | d :: r2 =>
        if d = 125 then if skipWs r2 = [] then .ok (.jobj []) else .error ()
        else
          match parseMembers s.length (d :: r2) with
          | .ok (kvs, r3) => if skipWs r3 = [] then .ok (.jobj kvs) else .error ()
          | .error _ => .error ()
    else .error ()

/-! ## OTP detection (`OTP_REGEX = re.compile(r"\b\d{4,8}\b")`, `detect_otp`)

`regexSearch` transcribes the backtracking search of this particular
pattern: at each start position, if a word boundary holds on the left,
try the lengths 8 down to 4 (greedy `{4,8}`) and accept when all
characters are decimal digits and a word boundary follows; otherwise
advance one position.  `specScan` is a second formulation following the
specification text: walk the maximal digit runs from the left and return
the first whose length lies in `[4, 8]` and whose neighbours satisfy a
boundary predicate; instantiating the predicate with non-digit or
non-word neighbours gives the two readings compared in the theorems.
The character classes are Unicode-aware, as in the engine: they are
membership in the code-point range tables that CPython's regex engine
uses for this pattern. -/

/-- Membership of a code point in a list of inclusive ranges. -/
def inRanges (rs : List (Nat × Nat)) (c : Nat) : Bool :=
  rs.any fun r => decide (r.1 ≤ c) && decide (c ≤ r.2)

/-- A range list covers one range when some entry contains it; used to
check that every digit range lies inside a word range. -/
def coveredBy (ws : List (Nat × Nat)) (r : Nat × Nat) : Bool :=
  ws.any fun s => decide (s.1 ≤ r.1) && decide (r.2 ≤ s.2)

/-- The code-point ranges matched by `\d` in CPython's `re` engine (the
decimal digits, Unicode category Nd; Unicode 14.0.0 tables), enumerated
from the engine itself. -/
def uniDigitRanges : List (Nat × Nat) := [
  (48, 57), (1632, 1641), (1776, 1785), (1984, 1993), (2406, 2415), (2534, 2543),
  (2662, 2671), (2790, 2799), (2918, 2927), (3046, 3055), (3174, 3183), (3302, 3311),
  (3430, 3439), (3558, 3567), (3664, 3673), (3792, 3801), (3872, 3881), (4160, 4169),
  (4240, 4249), (6112, 6121), (6160, 6169), (6470, 6479), (6608, 6617), (6784, 6793),
  (6800, 6809), (6992, 7001), (7088, 7097), (7232, 7241), (7248, 7257), (42528, 42537),
  (43216, 43225), (43264, 43273), (43472, 43481), (43504, 43513), (43600, 43609), (44016, 44025),
  (65296, 65305), (66720, 66729), (68912, 68921), (69734, 69743), (69872, 69881), (69942, 69951),
  (70096, 70105), (70384, 70393), (70736, 70745), (70864, 70873), (71248, 71257), (71360, 71369),
  (71472, 71481), (71904, 71913), (72016, 72025), (72784, 72793), (73040, 73049), (73120, 73129),
  (92768, 92777), (92864, 92873), (93008, 93017), (120782, 120831), (123200, 123209), (123632, 123641),
  (125264, 125273), (130032, 130041)]

/-- The code-point ranges matched by `\w` in CPython's `re` engine (the
alphanumeric code points and the underscore; Unicode 14.0.0 tables),
enumerated from the engine itself. -/
def uniWordRanges : List (Nat × Nat) := [
  (48, 57), (65, 90), (95, 95), (97, 122), (170, 170), (178, 179),
  (181, 181), (185, 186), (188, 190), (192, 214), (216, 246), (248, 705),
  (710, 721), (736, 740), (748, 748), (750, 750), (880, 884), (886, 887),
  (890, 893), (895, 895), (902, 902), (904, 906), (908, 908), (910, 929),
  (931, 1013), (1015, 1153), (1162, 1327), (1329, 1366), (1369, 1369), (1376, 1416),
  (1488, 1514), (1519, 1522), (1568, 1610), (1632, 1641), (1646, 1647), (1649, 1747),
  (1749, 1749), (1765, 1766), (1774, 1788), (1791, 1791), (1808, 1808), (1810, 1839),
  (1869, 1957), (1969, 1969), (1984, 2026), (2036, 2037), (2042, 2042), (2048, 2069),
  (2074, 2074), (2084, 2084), (2088, 2088), (2112, 2136), (2144, 2154), (2160, 2183),
  (2185, 2190), (2208, 2249), (2308, 2361), (2365, 2365), (2384, 2384), (2392, 2401),
  (2406, 2415), (2417, 2432), (2437, 2444), (2447, 2448), (2451, 2472), (2474, 2480),
  (2482, 2482), (2486, 2489), (2493, 2493), (2510, 2510), (2524, 2525), (2527, 2529),
  (2534, 2545), (2548, 2553), (2556, 2556), (2565, 2570), (2575, 2576), (2579, 2600),
  (2602, 2608), (2610, 2611), (2613, 2614), (2616, 2617), (2649, 2652), (2654, 2654),
  (2662, 2671), (2674, 2676), (2693, 2701), (2703, 2705), (2707, 2728), (2730, 2736),
  (2738, 2739), (2741, 2745), (2749, 2749), (2768, 2768), (2784, 2785), (2790, 2799),
  (2809, 2809), (2821, 2828), (2831, 2832), (2835, 2856), (2858, 2864), (2866, 2867),
  (2869, 2873), (2877, 2877), (2908, 2909), (2911, 2913), (2918, 2927), (2929, 2935),
  (2947, 2947), (2949, 2954), (2958, 2960), (2962, 2965), (2969, 2970), (2972, 2972),
  (2974, 2975), (2979, 2980), (2984, 2986), (2990, 3001), (3024, 3024), (3046, 3058),
  (3077, 3084), (3086, 3088), (3090, 3112), (3114, 3129), (3133, 3133), (3160, 3162),
  (3165, 3165), (3168, 3169), (3174, 3183), (3192, 3198), (3200, 3200), (3205, 3212),
  (3214, 3216), (3218, 3240), (3242, 3251), (3253, 3257), (3261, 3261), (3293, 3294),
  (3296, 3297), (3302, 3311), (3313, 3314), (3332, 3340), (3342, 3344), (3346, 3386),
  (3389, 3389), (3406, 3406), (3412, 3414), (3416, 3425), (3430, 3448), (3450, 3455),
  (3461, 3478), (3482, 3505), (3507, 3515), (3517, 3517), (3520, 3526), (3558, 3567),
  (3585, 3632), (3634, 3635), (3648, 3654), (3664, 3673), (3713, 3714), (3716, 3716),
  (3718, 3722), (3724, 3747), (3749, 3749), (3751, 3760), (3762, 3763), (3773, 3773),
  (3776, 3780), (3782, 3782), (3792, 3801), (3804, 3807), (3840, 3840), (3872, 3891),
  (3904, 3911), (3913, 3948), (3976, 3980), (4096, 4138), (4159, 4169), (4176, 4181),
  (4186, 4189), (4193, 4193), (4197, 4198), (4206, 4208), (4213, 4225), (4238, 4238),
  (4240, 4249), (4256, 4293), (4295, 4295), (4301, 4301), (4304, 4346), (4348, 4680),
  (4682, 4685), (4688, 4694), (4696, 4696), (4698, 4701), (4704, 4744), (4746, 4749),
  (4752, 4784), (4786, 4789), (4792, 4798), (4800, 4800), (4802, 4805), (4808, 4822),
  (4824, 4880), (4882, 4885), (4888, 4954), (4969, 4988), (4992, 5007), (5024, 5109),
  (5112, 5117), (5121, 5740), (5743, 5759), (5761, 5786), (5792, 5866), (5870, 5880),
  (5888, 5905), (5919, 5937), (5952, 5969), (5984, 5996), (5998, 6000), (6016, 6067),
  (6103, 6103), (6108, 6108), (6112, 6121), (6128, 6137), (6160, 6169), (6176, 6264),
  (6272, 6276), (6279, 6312), (6314, 6314), (6320, 6389), (6400, 6430), (6470, 6509),
  (6512, 6516), (6528, 6571), (6576, 6601), (6608, 6618), (6656, 6678), (6688, 6740),
  (6784, 6793), (6800, 6809), (6823, 6823), (6917, 6963), (6981, 6988), (6992, 7001),
  (7043, 7072), (7086, 7141), (7168, 7203), (7232, 7241), (7245, 7293), (7296, 7304),
  (7312, 7354), (7357, 7359), (7401, 7404), (7406, 7411), (7413, 7414), (7418, 7418),
  (7424, 7615), (7680, 7957), (7960, 7965), (7968, 8005), (8008, 8013), (8016, 8023),
  (8025, 8025), (8027, 8027), (8029, 8029), (8031, 8061), (8064, 8116), (8118, 8124),
  (8126, 8126), (8130, 8132), (8134, 8140), (8144, 8147), (8150, 8155), (8160, 8172),
  (8178, 8180), (8182, 8188), (8304, 8305), (8308, 8313), (8319, 8329), (8336, 8348),
  (8450, 8450), (8455, 8455), (8458, 8467), (8469, 8469), (8473, 8477), (8484, 8484),
  (8486, 8486), (8488, 8488), (8490, 8493), (8495, 8505), (8508, 8511), (8517, 8521),
  (8526, 8526), (8528, 8585), (9312, 9371), (9450, 9471), (10102, 10131), (11264, 11492),
  (11499, 11502), (11506, 11507), (11517, 11517), (11520, 11557), (11559, 11559), (11565, 11565),
  (11568, 11623), (11631, 11631), (11648, 11670), (11680, 11686), (11688, 11694), (11696, 11702),
  (11704, 11710), (11712, 11718), (11720, 11726), (11728, 11734), (11736, 11742), (11823, 11823),
  (12293, 12295), (12321, 12329), (12337, 12341), (12344, 12348), (12353, 12438), (12445, 12447),
  (12449, 12538), (12540, 12543), (12549, 12591), (12593, 12686), (12690, 12693), (12704, 12735),
  (12784, 12799), (12832, 12841), (12872, 12879), (12881, 12895), (12928, 12937), (12977, 12991),
  (13312, 19903), (19968, 42124), (42192, 42237), (42240, 42508), (42512, 42539), (42560, 42606),
  (42623, 42653), (42656, 42735), (42775, 42783), (42786, 42888), (42891, 42954), (42960, 42961),
  (42963, 42963), (42965, 42969), (42994, 43009), (43011, 43013), (43015, 43018), (43020, 43042),
  (43056, 43061), (43072, 43123), (43138, 43187), (43216, 43225), (43250, 43255), (43259, 43259),
  (43261, 43262), (43264, 43301), (43312, 43334), (43360, 43388), (43396, 43442), (43471, 43481),
  (43488, 43492), (43494, 43518), (43520, 43560), (43584, 43586), (43588, 43595), (43600, 43609),
  (43616, 43638), (43642, 43642), (43646, 43695), (43697, 43697), (43701, 43702), (43705, 43709),
  (43712, 43712), (43714, 43714), (43739, 43741), (43744, 43754), (43762, 43764), (43777, 43782),
  (43785, 43790), (43793, 43798), (43808, 43814), (43816, 43822), (43824, 43866), (43868, 43881),
  (43888, 44002), (44016, 44025), (44032, 55203), (55216, 55238), (55243, 55291), (63744, 64109),
  (64112, 64217), (64256, 64262), (64275, 64279), (64285, 64285), (64287, 64296), (64298, 64310),
  (64312, 64316), (64318, 64318), (64320, 64321), (64323, 64324), (64326, 64433), (64467, 64829),
  (64848, 64911), (64914, 64967), (65008, 65019), (65136, 65140), (65142, 65276), (65296, 65305),
  (65313, 65338), (65345, 65370), (65382, 65470), (65474, 65479), (65482, 65487), (65490, 65495),
  (65498, 65500), (65536, 65547), (65549, 65574), (65576, 65594), (65596, 65597), (65599, 65613),
  (65616, 65629), (65664, 65786), (65799, 65843), (65856, 65912), (65930, 65931), (66176, 66204),
  (66208, 66256), (66273, 66299), (66304, 66339), (66349, 66378), (66384, 66421), (66432, 66461),
  (66464, 66499), (66504, 66511), (66513, 66517), (66560, 66717), (66720, 66729), (66736, 66771),
  (66776, 66811), (66816, 66855), (66864, 66915), (66928, 66938), (66940, 66954), (66956, 66962),
  (66964, 66965), (66967, 66977), (66979, 66993), (66995, 67001), (67003, 67004), (67072, 67382),
  (67392, 67413), (67424, 67431), (67456, 67461), (67463, 67504), (67506, 67514), (67584, 67589),
  (67592, 67592), (67594, 67637), (67639, 67640), (67644, 67644), (67647, 67669), (67672, 67702),
  (67705, 67742), (67751, 67759), (67808, 67826), (67828, 67829), (67835, 67867), (67872, 67897),
  (67968, 68023), (68028, 68047), (68050, 68096), (68112, 68115), (68117, 68119), (68121, 68149),
  (68160, 68168), (68192, 68222), (68224, 68255), (68288, 68295), (68297, 68324), (68331, 68335),
  (68352, 68405), (68416, 68437), (68440, 68466), (68472, 68497), (68521, 68527), (68608, 68680),
  (68736, 68786), (68800, 68850), (68858, 68899), (68912, 68921), (69216, 69246), (69248, 69289),
  (69296, 69297), (69376, 69415), (69424, 69445), (69457, 69460), (69488, 69505), (69552, 69579),
  (69600, 69622), (69635, 69687), (69714, 69743), (69745, 69746), (69749, 69749), (69763, 69807),
  (69840, 69864), (69872, 69881), (69891, 69926), (69942, 69951), (69956, 69956), (69959, 69959),
  (69968, 70002), (70006, 70006), (70019, 70066), (70081, 70084), (70096, 70106), (70108, 70108),
  (70113, 70132), (70144, 70161), (70163, 70187), (70272, 70278), (70280, 70280), (70282, 70285),
  (70287, 70301), (70303, 70312), (70320, 70366), (70384, 70393), (70405, 70412), (70415, 70416),
  (70419, 70440), (70442, 70448), (70450, 70451), (70453, 70457), (70461, 70461), (70480, 70480),
  (70493, 70497), (70656, 70708), (70727, 70730), (70736, 70745), (70751, 70753), (70784, 70831),
  (70852, 70853), (70855, 70855), (70864, 70873), (71040, 71086), (71128, 71131), (71168, 71215),
  (71236, 71236), (71248, 71257), (71296, 71338), (71352, 71352), (71360, 71369), (71424, 71450),
  (71472, 71483), (71488, 71494), (71680, 71723), (71840, 71922), (71935, 71942), (71945, 71945),
  (71948, 71955), (71957, 71958), (71960, 71983), (71999, 71999), (72001, 72001), (72016, 72025),
  (72096, 72103), (72106, 72144), (72161, 72161), (72163, 72163), (72192, 72192), (72203, 72242),
  (72250, 72250), (72272, 72272), (72284, 72329), (72349, 72349), (72368, 72440), (72704, 72712),
  (72714, 72750), (72768, 72768), (72784, 72812), (72818, 72847), (72960, 72966), (72968, 72969),
  (72971, 73008), (73030, 73030), (73040, 73049), (73056, 73061), (73063, 73064), (73066, 73097),
  (73112, 73112), (73120, 73129), (73440, 73458), (73648, 73648), (73664, 73684), (73728, 74649),
  (74752, 74862), (74880, 75075), (77712, 77808), (77824, 78894), (82944, 83526), (92160, 92728),
  (92736, 92766), (92768, 92777), (92784, 92862), (92864, 92873), (92880, 92909), (92928, 92975),
  (92992, 92995), (93008, 93017), (93019, 93025), (93027, 93047), (93053, 93071), (93760, 93846),
  (93952, 94026), (94032, 94032), (94099, 94111), (94176, 94177), (94179, 94179), (94208, 100343),
  (100352, 101589), (101632, 101640), (110576, 110579), (110581, 110587), (110589, 110590), (110592, 110882),
  (110928, 110930), (110948, 110951), (110960, 111355), (113664, 113770), (113776, 113788), (113792, 113800),
  (113808, 113817), (119520, 119539), (119648, 119672), (119808, 119892), (119894, 119964), (119966, 119967),
  (119970, 119970), (119973, 119974), (119977, 119980), (119982, 119993), (119995, 119995), (119997, 120003),
  (120005, 120069), (120071, 120074), (120077, 120084), (120086, 120092), (120094, 120121), (120123, 120126),
  (120128, 120132), (120134, 120134), (120138, 120144), (120146, 120485), (120488, 120512), (120514, 120538),
  (120540, 120570), (120572, 120596), (120598, 120628), (120630, 120654), (120656, 120686), (120688, 120712),
  (120714, 120744), (120746, 120770), (120772, 120779), (120782, 120831), (122624, 122654), (123136, 123180),
  (123191, 123197), (123200, 123209), (123214, 123214), (123536, 123565), (123584, 123627), (123632, 123641),
  (124896, 124902), (124904, 124907), (124909, 124910), (124912, 124926), (124928, 125124), (125127, 125135),
  (125184, 125251), (125259, 125259), (125264, 125273), (126065, 126123), (126125, 126127), (126129, 126132),
  (126209, 126253), (126255, 126269), (126464, 126467), (126469, 126495), (126497, 126498), (126500, 126500),
  (126503, 126503), (126505, 126514), (126516, 126519), (126521, 126521), (126523, 126523), (126530, 126530),
  (126535, 126535), (126537, 126537), (126539, 126539), (126541, 126543), (126545, 126546), (126548, 126548),
  (126551, 126551), (126553, 126553), (126555, 126555), (126557, 126557), (126559, 126559), (126561, 126562),
  (126564, 126564), (126567, 126570), (126572, 126578), (126580, 126583), (126585, 126588), (126590, 126590),
  (126592, 126601), (126603, 126619), (126625, 126627), (126629, 126633), (126635, 126651), (127232, 127244),
  (130032, 130041), (131072, 173791), (173824, 177976), (177984, 178205), (178208, 183969), (183984, 191456),
  (194560, 195101), (196608, 201546)]

/-- A decimal digit as matched by the pattern: membership in the Nd
ranges of the engine. -/
def isDigitCp (c : Nat) : Bool := inRanges uniDigitRanges c

/-- A regex word character as matched by the engine: an alphanumeric
code point or the underscore. -/
def isWordCp (c : Nat) : Bool := inRanges uniWordRanges c

/-- Left-context boundary: no previous character, or the previous
character fails the class `wp`. -/
def boundaryBefore (wp : Nat → Bool) : Option Nat → Bool
  | none => true
  | some p => !wp p

/-- Right-context boundary: end of input, or a next character failing
the class `wp`. -/
def boundaryAfter (wp : Nat → Bool) : List Nat → Bool
  | [] => true
  | c :: _ => !wp c

/-- One greedy attempt: match exactly `L` digits here, then require a
word boundary. -/
def tryLen (L : Nat) (cs : List Nat) : Option (List Nat) :=
  if (cs.take L).length = L && (cs.take L).all isDigitCp &&
      boundaryAfter isWordCp (cs.drop L) then some (cs.take L) else none

/-- All attempts at one start position, longest first. -/
def tryMatch (prev : Option Nat) (cs : List Nat) : Option (List Nat) :=
  if boundaryBefore isWordCp prev then
    (tryLen 8 cs).orElse fun _ => (tryLen 7 cs).orElse fun _ =>
      (tryLen 6 cs).orElse fun _ => (tryLen 5 cs).orElse fun _ => tryLen 4 cs
  else none

/-- `re.search` of the pattern: leftmost start position wins. -/
def regexSearch (prev : Option Nat) (cs : List Nat) : Option (List Nat) :=
  match tryMatch prev cs with
  | some r => some r
  | none =>
    match cs with
    | [] => none
    | c :: rest => regexSearch (some c) rest

/-- `detect_otp`: `None` for falsy text, else the first regex match. -/
def detect_otp (text : PyStr) : Option PyStr :=
  if text.isEmpty then none else regexSearch none text

/-- Specification-style scan over maximal digit runs (fuelled so that the
function evaluates; the callers pass the input length plus one, and every
step consumes at least one character). -/
def specScan (wp : Nat → Bool) : Nat → Option Nat → List Nat → Option PyStr
  | 0, _, _ => none
  | _, _, [] => none
  | fuel + 1, prev, c :: rest =>
    if isDigitCp c then
      if boundaryBefore wp prev &&
          decide (4 ≤ (List.takeWhile isDigitCp (c :: rest)).length) &&
          decide ((List.takeWhile isDigitCp (c :: rest)).length ≤ 8) &&
          boundaryAfter wp (List.dropWhile isDigitCp (c :: rest)) then
        some (List.takeWhile isDigitCp (c :: rest))
      else
        specScan wp fuel
          (some ((List.takeWhile isDigitCp (c :: rest)).getLastD c))
          (List.dropWhile isDigitCp (c :: rest))
    else specScan wp fuel (some c) rest

/-- The claim text read literally: the first maximal run of 4 to 8
decimal digits bounded by non-digit characters or the string edges. -/
def spec_otp_digit (text : PyStr) : Option PyStr :=
  specScan isDigitCp (text.length + 1) none text

/-- The run characterisation matching the regex: boundaries are non-word
characters (the alphanumeric code points and the underscore are word
characters). -/
def spec_otp_word (text : PyStr) : Option PyStr :=
  specScan isWordCp (text.length + 1) none text

/-! ## The recovery-token codec and the `repair` validation

`encode_recovery_token(data)` is `urlsafe_b64encode(json.dumps(data).encode())`
and `decode_recovery_token(token)` is `json.loads(urlsafe_b64decode(token))`;
any failure of the three stages is an exception, modelled as `.error ()`.
`repair` additionally checks `all(k in data for k in ("email", "password",
"token"))` and raises `ValueError` otherwise; the two failure kinds are told
apart by `DecodeError` (`binascii` / unicode / JSON errors against the
`ValueError` of the structure check). -/

/-- `encode_recovery_token`. -/
def encode_recovery_token (data : Json) : PyStr :=
  b64encode (utf8Encode (jsonDumps data))

/-- `decode_recovery_token`; an error is any exception the three stages
raise. -/
def decode_recovery_token (tok : PyStr) : Except Unit Json :=
  match b64decode tok with
  | .error _ => .error ()
  | .ok bytes =>
    match utf8Decode bytes with
    | .error _ => .error ()
    | .ok text => jsonLoads text

/-- The two error kinds of the token taxonomy. -/
inductive DecodeError where
  | malformedToken
  | missingField
deriving DecidableEq

/-- Python substring containment (`k in s` on strings). -/
def isSubstr : PyStr → PyStr → Bool
  | k, [] => k.isEmpty
  | k, c :: rest => k.isPrefixOf (c :: rest) || isSubstr k rest

/-- Python `k in data`: key membership on a dict, substring test on a
string. -/
def pyIn (k : PyStr) (data : Json) : Bool :=
  match data with
  | .jobj kvs => kvs.any (fun kv => kv.1 == k)
  | .jstr s => isSubstr k s

/-- The `repair` structure check: the three required keys respond to
`in`. -/
def hasRequiredKeys (data : Json) : Bool :=
  pyIn (ascii "email") data && pyIn (ascii "password") data &&
    pyIn (ascii "token") data

/-- Token decoding as the `repair` handler sees it: decode, then check
the three required keys, distinguishing the two error kinds. -/
def decodeAndValidate (tok : PyStr) : Except DecodeError Json :=
  match decode_recovery_token tok with
  | .error _ => .error .malformedToken
  | .ok data =>
    if hasRequiredKeys data then .ok data else .error .missingField

/-- Python `data["email"]` on the decoded value: dict lookup (last
binding wins, as later duplicate keys overwrite in a dict), `TypeError`
(`none`) when the value is a string. -/
def getEmail (data : Json) : Option PyStr :=
  match data with
  | .jobj kvs => (kvs.filter (fun kv => kv.1 == ascii "email")).getLast? |>.map Prod.snd
  | .jstr _ => none

/-! ## The session store (`ACTIVE_SESSIONS`) -/

/-- `ACTIVE_SESSIONS`: a dict from chat-user id to the stored session
value (whatever `repair` decoded, or the dict `new_email` builds). -/
def Store := Nat → Option Json

/-- The empty store (process start). -/
def emptyStore : Store := fun _ => none

/-- `ACTIVE_SESSIONS[user_id] = value`. -/
def putSession (st : Store) (u : Nat) (v : Json) : Store :=
  fun k => if k = u then some v else st k

/-- `ACTIVE_SESSIONS.get(user_id)`. -/
def getSession (st : Store) (u : Nat) : Option Json := st u

/-- A sequence of writes applied to a store. -/
def applyPuts (st : Store) (ops : List (Nat × Json)) : Store :=
  ops.foldl (fun s op => putSession s op.1 op.2) st

/-! ## Command handlers

Replies are abstracted to their kind (plus the data they carry); the chat
transport may fail, which enters as a boolean oracle where the handler
catches such a failure. -/

/-- The user-facing replies the modelled handlers produce. -/
inductive Reply where
  | usage
  | invalidToken
  | recovered (email : PyStr)
  | noDomains
  | errorCreating
  | created (email : PyStr) (recoveryTok : PyStr)
deriving DecidableEq

/-- The `repair` handler: usage message without arguments; decode and
validate the token; on success overwrite the session entry and reply,
on any failure reply that the token is invalid.  A failure to deliver
the success reply (`replyOk = false`, or the `TypeError` of `data["email"]`
on a decoded string) is caught by the same `except` and reported as an
invalid token, after the store was already written. -/
def repair (st : Store) (u : Nat) (args : List PyStr) (replyOk : Bool) :
    Store × Reply :=
  match args with
  | [] => (st, .usage)
  | tok :: _ =>
    match decodeAndValidate tok with
    | .error _ => (st, .invalidToken)
    | .ok data =>
      match getEmail data with
      | none => (putSession st u data, .invalidToken)
      | some em =>
        if replyOk then (putSession st u data, .recovered em)
        else (putSession st u data, .invalidToken)

/-- The session dict `new_email` builds. -/
def sessionJson (email password jwt : PyStr) : Json :=
  .jobj [(ascii "email", email), (ascii "password", password),
    (ascii "token", jwt)]

/-- The `new_email` handler.  Provider outcomes are oracle arguments:
the domain listing (list or exception), account creation and
authentication (exception or result); `localPart`, `pw` and `idx` stand
for the random choices.  The store is written only after all three
provider calls succeeded; any earlier failure is caught and reported. -/
def newEmail (st : Store) (u : Nat) (domainsRes : Except Unit (List PyStr))
    (createRes : Except Unit Unit) (tokenRes : Except Unit PyStr)
    (localPart pw : PyStr) (idx : Nat) (replyOk : Bool) : Store × Reply :=
  match domainsRes with
  | .error _ => (st, .errorCreating)
  | .ok domains =>
    if domains.isEmpty then (st, .noDomains)
    else
      match createRes with
      | .error _ => (st, .errorCreating)
      | .ok _ =>
        match tokenRes with
        | .error _ => (st, .errorCreating)
        | .ok jwt =>
          let email := localPart ++ (64 :: domains.getD (idx % domains.length) [])
          let sess := sessionJson email pw jwt
          (putSession st u sess,
            if replyOk then .created email (encode_recovery_token sess)
            else .errorCreating)

/-! ## The `read` handler as a trace of provider and transport operations

Message formatting is elided; the trace records, per processed message id,
the provider read, the formatted send attempt (with its outcome), the
plain fallback attempt after a failed formatted send, and the provider
delete.  A message whose full fetch came back empty is skipped
(`continue`); a failed fallback send is an uncaught exception, which
aborts the loop. -/

/-- Provider / transport events of one `read` invocation. -/
inductive Event where
  | readMsg (id : Nat)
  | sendFmt (id : Nat) (ok : Bool)
  | sendPlain (id : Nat) (ok : Bool)
  | deleteMsg (id : Nat)
deriving DecidableEq

/-- Events of one loop iteration, and whether the loop continues. -/
def processMsg (fullOf fmtOk fallbackOk : Nat → Bool) (id : Nat) :
    List Event × Bool :=
  if fullOf id then
    if fmtOk id then ([.readMsg id, .sendFmt id true, .deleteMsg id], true)
    else if fallbackOk id then
      ([.readMsg id, .sendFmt id false, .sendPlain id true, .deleteMsg id], true)
    else ([.readMsg id, .sendFmt id false, .sendPlain id false], false)
  else ([.readMsg id], true)

/-- The message loop of `read` over the (already truncated) id list. -/
def readLoop (fullOf fmtOk fallbackOk : Nat → Bool) : List Nat → List Event
  | [] => []
  | id :: rest =>
    if (processMsg fullOf fmtOk fallbackOk id).2 then
      (processMsg fullOf fmtOk fallbackOk id).1 ++
        readLoop fullOf fmtOk fallbackOk rest
    else (processMsg fullOf fmtOk fallbackOk id).1

/-- The `read` handler: nothing happens without a session or messages
(only an informational reply); otherwise the loop runs over the first
five listed messages (`messages[:5]`). -/
def readCommand (st : Store) (u : Nat) (msgs : List Nat)
    (fullOf fmtOk fallbackOk : Nat → Bool) : List Event :=
  match getSession st u with
  | none => []
  | some _ => readLoop fullOf fmtOk fallbackOk (msgs.take 5)

/-- A successful send (formatted or plain fallback) relaying message
`id`. -/
def isRelay (id : Nat) : Event → Bool
  | .sendFmt i true => i == id
  | .sendPlain i true => i == id
  | _ => false

/-- A successful send of any message. -/
def isRelayAny : Event → Bool
  | .sendFmt _ true => true
  | .sendPlain _ true => true
  | _ => false

/-- Number of messages relayed in a trace. -/
def countRelays (tr : List Event) : Nat := (tr.filter isRelayAny).length

/-- Message `id` was relayed somewhere in the trace. -/
def relayedIn (tr : List Event) (id : Nat) : Prop :=
  ∃ e ∈ tr, isRelay id e = true

/-- Every failed formatted send is immediately followed by exactly one
plain fallback attempt, and a failed fallback ends the trace. -/
def fallbackDiscipline : List Event → Prop
  | [] => True
  | .sendFmt id false :: rest =>
    (∃ b rest2, rest = .sendPlain id b :: rest2 ∧ (b = false → rest2 = [])) ∧
      fallbackDiscipline rest
  | _ :: rest => fallbackDiscipline rest

/-! ## Session records

The session dict built by `new_email` and carried by recovery tokens:
`{"email": ..., "password": ..., "token": ...}` with string values, in
that insertion order. -/

/-- A session record: the three credential strings. -/
structure SessionRecord where
  email : PyStr
  password : PyStr
  token : PyStr
deriving DecidableEq

/-- The session record as the Python dict `new_email` builds (insertion
order `email`, `password`, `token`). -/
def recordToJson (r : SessionRecord) : Json :=
  .jobj [(ascii "email", r.email), (ascii "password", r.password),
    (ascii "token", r.token)]

/-- A valid session record per the data model: all three fields
non-empty strings of Unicode scalar values. -/
def ValidRecord (r : SessionRecord) : Prop :=
  r.email ≠ [] ∧ r.password ≠ [] ∧ r.token ≠ [] ∧
    ValidStr r.email ∧ ValidStr r.password ∧ ValidStr r.token

instance (r : SessionRecord) : Decidable (ValidRecord r) := by
  unfold ValidRecord; infer_instance

/-! ## Lemmas: base64 -/

theorem sextetVal_sextetChar : ∀ n < 64, sextetVal (sextetChar n) = some n := by
  decide

theorem sextetChar_ne_61 : ∀ n < 64, sextetChar n ≠ 61 := by
  decide

theorem isB64Alpha_sextetChar (n : Nat) : isB64Alpha (sextetChar n) = true := by
  unfold isB64Alpha sextetVal sextetChar
  split_ifs <;> simp_all <;> omega

theorem b64encode_mem (bs : List Nat) :
    ∀ c ∈ b64encode bs, (isB64Alpha c || c == 61) = true := by
  induction bs using b64encode.induct with
  | case1 => simp [b64encode]
  | case2 b0 => simp [b64encode, isB64Alpha_sextetChar]
  | case3 b0 b1 => simp [b64encode, isB64Alpha_sextetChar]
  | case4 b0 b1 b2 rest ih =>
    intro c hc
    simp only [b64encode, List.mem_cons] at hc
    rcases hc with h | h | h | h | h
    all_goals first
      | (subst h; simp [isB64Alpha_sextetChar])
      | exact ih c h

theorem b64encode_filter (bs : List Nat) :
    (b64encode bs).filter (fun c => isB64Alpha c || c == 61) = b64encode bs := by
  rw [List.filter_eq_self]
  intro c hc
  exact b64encode_mem bs c hc

theorem decodeQuads_b64encode (bs : List Nat) (h : ∀ b ∈ bs, b < 256) :
    decodeQuads (b64encode bs) = .ok bs := by
  induction bs using b64encode.induct with
  | case1 => rfl
  | case2 b0 =>
    have h0 : b0 < 256 := h b0 (by simp)
    have e0 := sextetVal_sextetChar (b0 / 4) (by omega)
    have e1 := sextetVal_sextetChar (b0 % 4 * 16) (by omega)
    simp only [b64encode, decodeQuads, e0, e1, if_pos rfl]
    simp
    omega
  | case3 b0 b1 =>
    have h0 : b0 < 256 := h b0 (by simp)
    have h1 : b1 < 256 := h b1 (by simp)
    have e0 := sextetVal_sextetChar (b0 / 4) (by omega)
    have e1 := sextetVal_sextetChar (b0 % 4 * 16 + b1 / 16) (by omega)
    have e2 := sextetVal_sextetChar (b1 % 16 * 4) (by omega)
    have ne2 := sextetChar_ne_61 (b1 % 16 * 4) (by omega)
    simp only [b64encode, decodeQuads, e0, e1, e2, if_neg ne2, if_pos rfl]
    simp
    omega
  | case4 b0 b1 b2 rest ih =>
    have h0 : b0 < 256 := h b0 (by simp)
    have h1 : b1 < 256 := h b1 (by simp)
    have h2 : b2 < 256 := h b2 (by simp)
    have e0 := sextetVal_sextetChar (b0 / 4) (by omega)
    have e1 := sextetVal_sextetChar (b0 % 4 * 16 + b1 / 16) (by omega)
    have e2 := sextetVal_sextetChar (b1 % 16 * 4 + b2 / 64) (by omega)
    have e3 := sextetVal_sextetChar (b2 % 64) (by omega)
    have ne2 := sextetChar_ne_61 (b1 % 16 * 4 + b2 / 64) (by omega)
    have ne3 := sextetChar_ne_61 (b2 % 64) (by omega)
    have ih' := ih (fun b hb => h b (by simp [hb]))
    simp only [b64encode, decodeQuads, e0, e1, e2, e3, if_neg ne2, if_neg ne3,
      ih', Except.map]
    simp
    refine ⟨by omega, by omega, by omega⟩

theorem b64_roundtrip (bs : List Nat) (h : ∀ b ∈ bs, b < 256) :
    b64decode (b64encode bs) = .ok bs := by
  unfold b64decode
  rw [b64encode_filter]
  exact decodeQuads_b64encode bs h

theorem b64encode_pad (bs : List Nat) :
    ∃ body pad, b64encode bs = body ++ pad ∧ (∀ c ∈ body, isB64Alpha c = true) ∧
      (pad = [] ∨ pad = [61] ∨ pad = [61, 61]) := by
  induction bs using b64encode.induct with
  | case1 => exact ⟨[], [], by simp [b64encode]⟩
  | case2 b0 =>
    refine ⟨[sextetChar (b0 / 4), sextetChar (b0 % 4 * 16)], [61, 61], ?_, ?_, ?_⟩
    · simp [b64encode]
    · intro c hc
      simp only [List.mem_cons, List.not_mem_nil, or_false] at hc
      rcases hc with h | h <;> (subst h; exact isB64Alpha_sextetChar _)
    · simp
  | case3 b0 b1 =>
    refine ⟨[sextetChar (b0 / 4), sextetChar (b0 % 4 * 16 + b1 / 16),
      sextetChar (b1 % 16 * 4)], [61], ?_, ?_, ?_⟩
    · simp [b64encode]
    · intro c hc
      simp only [List.mem_cons, List.not_mem_nil, or_false] at hc
      rcases hc with h | h | h <;> (subst h; exact isB64Alpha_sextetChar _)
    · simp
  | case4 b0 b1 b2 rest ih =>
    obtain ⟨body, pad, heq, hbody, hpad⟩ := ih
    refine ⟨sextetChar (b0 / 4) :: sextetChar (b0 % 4 * 16 + b1 / 16) ::
      sextetChar (b1 % 16 * 4 + b2 / 64) :: sextetChar (b2 % 64) :: body, pad,
      ?_, ?_, hpad⟩
    · simp [b64encode, heq]
    · intro c hc
      simp only [List.mem_cons] at hc
      rcases hc with h | h | h | h | h
      all_goals first
        | (subst h; exact isB64Alpha_sextetChar _)
        | exact hbody c h

/-! ## Lemmas: UTF-8 on ASCII text -/

theorem utf8Encode_ascii (s : PyStr) (h : ∀ c ∈ s, c < 128) :
    utf8Encode s = s := by
  induction s with
  | nil => rfl
  | cons c rest ih =>
    have hc : c < 128 := h c (by simp)
    have h1 : utf8EncodeCp c = [c] := by unfold utf8EncodeCp; rw [if_pos hc]
    have ih' := ih (fun x hx => h x (by simp [hx]))
    simp only [utf8Encode, List.flatMap_cons, h1, List.singleton_append]
    simp only [utf8Encode] at ih'
    rw [ih']

theorem utf8DecodeOne_ascii (b : Nat) (rest : List Nat) (h : b < 128) :
    utf8DecodeOne (b :: rest) = some (b, rest) := by
  rw [utf8DecodeOne.eq_def]
  dsimp only
  rw [if_pos h]

theorem utf8DecodeLoop_ascii (s : List Nat) :
    ∀ fuel, (∀ c ∈ s, c < 128) → s.length < fuel →
      utf8DecodeLoop fuel s = .ok s := by
  induction s with
  | nil => intro fuel _ _; cases fuel <;> rfl
  | cons c rest ih =>
    intro fuel h hlen
    match fuel, hlen with
    | f + 1, hl =>
      have hc : c < 128 := h c (by simp)
      have hr : rest.length < f := by simp only [List.length_cons] at hl; omega
      rw [utf8DecodeLoop, utf8DecodeOne_ascii c rest hc]
      dsimp only
      rw [ih f (fun x hx => h x (by simp [hx])) hr]
      rfl

theorem utf8Decode_ascii (s : List Nat) (h : ∀ c ∈ s, c < 128) :
    utf8Decode s = .ok s :=
  utf8DecodeLoop_ascii s (s.length + 1) h (by omega)

/-! ## Lemmas: `json.dumps` output is ASCII -/

theorem escHex4_ascii (v : Nat) : ∀ x ∈ escHex4 v, x < 128 := by
  intro x hx
  unfold escHex4 hexDigitChar at hx
  simp only [List.mem_cons, List.not_mem_nil, or_false] at hx
  rcases hx with h | h | h | h | h | h <;> subst h <;>
    first | omega | (split_ifs <;> omega)

theorem escapeCp_ascii (c : Nat) : ∀ x ∈ escapeCp c, x < 128 := by
  intro x hx
  unfold escapeCp at hx
  split_ifs at hx with h1 h2 h3 h4 h5 h6 h7 h8 h9 h10
  all_goals first
    | (rcases List.mem_append.mp hx with h | h <;> exact escHex4_ascii _ x h)
    | exact escHex4_ascii _ x hx
    | (simp only [List.mem_cons, List.not_mem_nil, or_false] at hx;
       rcases hx with h | h <;> omega)

theorem escapeStr_ascii (s : PyStr) : ∀ x ∈ escapeStr s, x < 128 := by
  intro x hx
  unfold escapeStr at hx
  obtain ⟨c, _, hmem⟩ := List.mem_flatMap.mp hx
  exact escapeCp_ascii c x hmem

theorem strLit_ascii (s : PyStr) : ∀ x ∈ strLit s, x < 128 := by
  intro x hx
  unfold strLit at hx
  simp only [List.mem_cons, List.mem_append, List.not_mem_nil, or_false] at hx
  rcases hx with h | h | h
  · omega
  · exact escapeStr_ascii s x h
  · omega

theorem dumpMembers_ascii (kvs : List (PyStr × PyStr)) :
    ∀ x ∈ dumpMembers kvs, x < 128 := by
  induction kvs with
  | nil => simp [dumpMembers]
  | cons kv rest ih =>
    intro x hx
    obtain ⟨k, v⟩ := kv
    simp only [dumpMembers, List.mem_append, List.mem_cons, List.not_mem_nil,
      or_false] at hx
    rcases hx with (((h | (h | h)) | h) | h) | h
    · exact strLit_ascii k x h
    · omega
    · omega
    · exact strLit_ascii v x h
    · split_ifs at h
      · simp at h
      · simp only [List.mem_cons, List.not_mem_nil, or_false] at h
        rcases h with h | h <;> omega
    · exact ih x h

theorem jsonDumps_ascii (j : Json) : ∀ x ∈ jsonDumps j, x < 128 := by
  intro x hx
  match j with
  | .jstr s => exact strLit_ascii s x hx
  | .jobj kvs =>
    simp only [jsonDumps, List.mem_cons, List.mem_append, List.not_mem_nil,
      or_false] at hx
    rcases hx with h | h | h
    · omega
    · exact dumpMembers_ascii kvs x h
    · omega

/-! ## Lemmas: the parser inverts `json.dumps` -/

theorem hexVal_hexDigitChar : ∀ d < 16, hexVal (hexDigitChar d) = some d := by
  decide

theorem hex4_nibbles (v : Nat) (h : v < 0x10000) :
    hex4 (hexDigitChar (v / 4096 % 16)) (hexDigitChar (v / 256 % 16))
      (hexDigitChar (v / 16 % 16)) (hexDigitChar (v % 16)) = some v := by
  have e1 := hexVal_hexDigitChar (v / 4096 % 16) (by omega)
  have e2 := hexVal_hexDigitChar (v / 256 % 16) (by omega)
  have e3 := hexVal_hexDigitChar (v / 16 % 16) (by omega)
  have e4 := hexVal_hexDigitChar (v % 16) (by omega)
  rw [hex4.eq_def, e1, e2, e3, e4]
  dsimp only
  congr 1
  omega

theorem parseEscapeOne_u (v : Nat) (hv : v < 0x10000)
    (hs : ¬(0xD800 ≤ v ∧ v < 0xDC00)) (tail : List Nat) :
    parseEscapeOne (117 :: hexDigitChar (v / 4096 % 16) ::
      hexDigitChar (v / 256 % 16) :: hexDigitChar (v / 16 % 16) ::
      hexDigitChar (v % 16) :: tail) = some (v, tail) := by
  rw [parseEscapeOne.eq_def]
  dsimp only
  rw [hex4_nibbles v hv]
  dsimp only
  rw [if_neg (by decide), if_neg (by decide), if_neg (by decide),
    if_neg (by decide), if_neg (by decide), if_neg (by decide),
    if_neg (by decide), if_neg (by decide), if_pos rfl, if_neg hs]

theorem parseEscapeOne_pair (x1 x2 x3 x4 y1 y2 y3 y4 hi lo : Nat)
    (tail : List Nat) (hx : hex4 x1 x2 x3 x4 = some hi)
    (hy : hex4 y1 y2 y3 y4 = some lo)
    (hhi : 0xD800 ≤ hi ∧ hi < 0xDC00) (hlo : 0xDC00 ≤ lo ∧ lo < 0xE000) :
    parseEscapeOne (117 :: x1 :: x2 :: x3 :: x4 :: 92 :: 117 ::
      y1 :: y2 :: y3 :: y4 :: tail) =
      some (0x10000 + (hi - 0xD800) * 0x400 + (lo - 0xDC00), tail) := by
  rw [parseEscapeOne.eq_def]
  dsimp only
  rw [hx]
  dsimp only
  rw [if_neg (by decide), if_neg (by decide), if_neg (by decide),
    if_neg (by decide), if_neg (by decide), if_neg (by decide),
    if_neg (by decide), if_neg (by decide), if_pos rfl, if_pos hhi]
  rw [parsePairTail.eq_def]
  dsimp only
  rw [if_pos (show (92 : Nat) = 92 ∧ (117 : Nat) = 117 from ⟨rfl, rfl⟩), hy]
  dsimp only
  rw [if_pos hlo]

theorem parseStrBody_escapeCp (c : Nat) (hv : ValidCp c) (fuel : Nat)
    (tail : List Nat) :
    parseStrBody (fuel + 1) (escapeCp c ++ tail) =
      (parseStrBody fuel tail).map (fun p => (c :: p.1, p.2)) := by
  obtain ⟨hlt, hsur⟩ := hv
  rw [escapeCp]
  split_ifs with h1 h2 h3 h4 h5 h6 h7 h8 h9 h10
  · subst h1
    simp only [List.cons_append, List.nil_append]
    rw [parseStrBody, if_neg (by decide), if_pos rfl]
    rw [show parseEscapeOne (92 :: tail) = some (92, tail) from by
      rw [parseEscapeOne.eq_def]; dsimp only; simp]
  · subst h2
    simp only [List.cons_append, List.nil_append]
    rw [parseStrBody, if_neg (by decide), if_pos rfl]
    rw [show parseEscapeOne (34 :: tail) = some (34, tail) from by
      rw [parseEscapeOne.eq_def]; dsimp only; simp]
  · subst h3
    simp only [List.cons_append, List.nil_append]
    rw [parseStrBody, if_neg (by decide), if_pos rfl]
    rw [show parseEscapeOne (98 :: tail) = some (8, tail) from by
      rw [parseEscapeOne.eq_def]; dsimp only; simp]
  · subst h4
    simp only [List.cons_append, List.nil_append]
    rw [parseStrBody, if_neg (by decide), if_pos rfl]
    rw [show parseEscapeOne (116 :: tail) = some (9, tail) from by
      rw [parseEscapeOne.eq_def]; dsimp only; simp]
  · subst h5
    simp only [List.cons_append, List.nil_append]
    rw [parseStrBody, if_neg (by decide), if_pos rfl]
    rw [show parseEscapeOne (110 :: tail) = some (10, tail) from by
      rw [parseEscapeOne.eq_def]; dsimp only; simp]
  · subst h6
    simp only [List.cons_append, List.nil_append]
    rw [parseStrBody, if_neg (by decide), if_pos rfl]
    rw [show parseEscapeOne (102 :: tail) = some (12, tail) from by
      rw [parseEscapeOne.eq_def]; dsimp only; simp]
  · subst h7
    simp only [List.cons_append, List.nil_append]
    rw [parseStrBody, if_neg (by decide), if_pos rfl]
    rw [show parseEscapeOne (114 :: tail) = some (13, tail) from by
      rw [parseEscapeOne.eq_def]; dsimp only; simp]
  · rw [escHex4]
    simp only [List.cons_append, List.nil_append]
    rw [parseStrBody, if_neg (by decide), if_pos rfl]
    rw [parseEscapeOne_u c (by omega) (by omega) tail]
  · simp only [List.cons_append, List.nil_append]
    rw [parseStrBody, if_neg h2, if_neg h1, if_neg h8]
  · rw [escHex4]
    simp only [List.cons_append, List.nil_append]
    rw [parseStrBody, if_neg (by decide), if_pos rfl]
    rw [parseEscapeOne_u c (by omega) (by omega) tail]
  · rw [escHex4, escHex4]
    simp only [List.cons_append, List.nil_append]
    rw [parseStrBody, if_neg (by decide), if_pos rfl]
    rw [parseEscapeOne_pair _ _ _ _ _ _ _ _ _ _ _
      (hex4_nibbles (0xD800 + (c - 0x10000) / 0x400) (by omega))
      (hex4_nibbles (0xDC00 + (c - 0x10000) % 0x400) (by omega))
      ⟨by omega, by omega⟩ ⟨by omega, by omega⟩]
    dsimp only
    have hXc : 0x10000 + (0xD800 + (c - 0x10000) / 0x400 - 0xD800) * 0x400 +
        (0xDC00 + (c - 0x10000) % 0x400 - 0xDC00) = c := by omega
    rw [hXc]

theorem parseStrBody_inv (s : PyStr) (hs : ValidStr s) :
    ∀ fuel rest, parseStrBody (fuel + s.length + 1) (escapeStr s ++ 34 :: rest) =
      .ok (s, rest) := by
  induction s with
  | nil =>
    intro fuel rest
    simp only [escapeStr, List.flatMap_nil, List.nil_append, List.length_nil]
    rw [parseStrBody, if_pos rfl]
  | cons c s ih =>
    intro fuel rest
    have hc : ValidCp c := hs c (by simp)
    have ih' := ih (fun x hx => hs x (by simp [hx]))
    simp only [escapeStr, List.flatMap_cons, List.length_cons] at ih' ⊢
    rw [List.append_assoc]
    have harith : fuel + (s.length + 1) + 1 = (fuel + s.length + 1) + 1 := by
      omega
    rw [harith]
    rw [parseStrBody_escapeCp c hc (fuel + s.length + 1)
      (s.flatMap escapeCp ++ 34 :: rest)]
    rw [ih' fuel rest]
    rfl

theorem escapeCp_length_pos (c : Nat) : 1 ≤ (escapeCp c).length := by
  rw [escapeCp]
  split_ifs <;> simp [escHex4]

theorem escapeStr_length_ge (s : PyStr) : s.length ≤ (escapeStr s).length := by
  induction s with
  | nil => simp [escapeStr]
  | cons c s ih =>
    have := escapeCp_length_pos c
    simp only [escapeStr, List.flatMap_cons, List.length_append,
      List.length_cons] at ih ⊢
    omega

theorem parseString_strLit (s : PyStr) (hs : ValidStr s) (rest : List Nat) :
    parseString (strLit s ++ rest) = .ok (s, rest) := by
  have h1 : strLit s ++ rest = 34 :: (escapeStr s ++ 34 :: rest) := by
    simp [strLit]
  rw [h1, parseString]
  have hge := escapeStr_length_ge s
  have hlen : (escapeStr s ++ 34 :: rest).length + 1 =
      ((escapeStr s).length - s.length + rest.length + 1) + s.length + 1 := by
    simp only [List.length_append, List.length_cons]
    omega
  rw [hlen]
  exact parseStrBody_inv s hs _ rest

theorem skipWs_cons_nws (c : Nat) (l : List Nat) (h : isWsCp c = false) :
    skipWs (c :: l) = c :: l := by
  simp [skipWs, List.dropWhile_cons, h]

theorem skipWs_cons_ws (c : Nat) (l : List Nat) (h : isWsCp c = true) :
    skipWs (c :: l) = skipWs l := by
  simp [skipWs, List.dropWhile_cons, h]

theorem skipWs_strLit_append (s : PyStr) (rest : List Nat) :
    skipWs (strLit s ++ rest) = strLit s ++ rest := by
  rw [show strLit s ++ rest = 34 :: (escapeStr s ++ [34] ++ rest) from by
    simp [strLit]]
  exact skipWs_cons_nws 34 _ (by decide)

theorem parseMemberOne_inv (k v : PyStr) (hk : ValidStr k) (hv : ValidStr v)
    (rest : List Nat) :
    parseMemberOne (strLit k ++ [58, 32] ++ strLit v ++ rest) =
      some ((k, v), skipWs rest) := by
  rw [parseMemberOne]
  rw [show strLit k ++ [58, 32] ++ strLit v ++ rest =
    strLit k ++ (58 :: 32 :: (strLit v ++ rest)) from by simp]
  rw [parseString_strLit k hk]
  dsimp only
  rw [show skipWs (58 :: 32 :: (strLit v ++ rest)) =
    58 :: 32 :: (strLit v ++ rest) from skipWs_cons_nws 58 _ (by decide)]
  dsimp only
  rw [if_pos rfl]
  rw [show skipWs (32 :: (strLit v ++ rest)) = strLit v ++ rest from by
    rw [skipWs_cons_ws 32 _ (by decide)]; exact skipWs_strLit_append v rest]
  rw [parseString_strLit v hv]

theorem dumpMembers_length_ge (kvs : List (PyStr × PyStr)) :
    kvs.length ≤ (dumpMembers kvs).length := by
  induction kvs with
  | nil => simp [dumpMembers]
  | cons kv tl ih =>
    obtain ⟨k, v⟩ := kv
    simp only [dumpMembers, List.length_append, List.length_cons,
      strLit, List.length_append]
    omega

theorem skipWs_dumpMembers_append (kvs : List (PyStr × PyStr))
    (hne : kvs ≠ []) (rest : List Nat) :
    skipWs (dumpMembers kvs ++ rest) = dumpMembers kvs ++ rest := by
  match kvs with
  | (k, v) :: tl =>
    rw [show dumpMembers ((k, v) :: tl) ++ rest =
      34 :: (escapeStr k ++ [34] ++ ([58, 32] ++ strLit v ++
        (if tl.isEmpty then [] else [44, 32]) ++ dumpMembers tl) ++ rest)
      from by simp [dumpMembers, strLit]]
    exact skipWs_cons_nws 34 _ (by decide)

theorem parseMembers_dumpMembers (kvs : List (PyStr × PyStr)) :
    kvs ≠ [] → (∀ kv ∈ kvs, ValidStr kv.1 ∧ ValidStr kv.2) →
    ∀ fuel, kvs.length ≤ fuel → ∀ rest,
      parseMembers fuel (dumpMembers kvs ++ 125 :: rest) = .ok (kvs, rest) := by
  induction kvs with
  | nil => intro h; exact absurd rfl h
  | cons kv tl ih =>
    intro _ hval fuel hfuel rest
    obtain ⟨k, v⟩ := kv
    obtain ⟨hk, hv⟩ := hval (k, v) (by simp)
    match fuel, hfuel with
    | f + 1, hf =>
      rw [parseMembers]
      match tl, ih with
      | [], _ =>
        rw [show dumpMembers [(k, v)] ++ 125 :: rest =
          strLit k ++ [58, 32] ++ strLit v ++ (125 :: rest) from by
            simp [dumpMembers]]
        rw [parseMemberOne_inv k v hk hv]
        rw [skipWs_cons_nws 125 rest (by decide)]
        dsimp only
        rw [if_neg (by decide), if_pos rfl]
      | (k2, v2) :: tl2, ih =>
        rw [show dumpMembers ((k, v) :: (k2, v2) :: tl2) ++ 125 :: rest =
          strLit k ++ [58, 32] ++ strLit v ++
            (44 :: 32 :: (dumpMembers ((k2, v2) :: tl2) ++ 125 :: rest))
          from by simp [dumpMembers]]
        rw [parseMemberOne_inv k v hk hv]
        rw [skipWs_cons_nws 44 _ (by decide)]
        dsimp only
        rw [if_pos rfl]
        rw [show skipWs (32 :: (dumpMembers ((k2, v2) :: tl2) ++ 125 :: rest)) =
          dumpMembers ((k2, v2) :: tl2) ++ 125 :: rest from by
            rw [skipWs_cons_ws 32 _ (by decide)]
            exact skipWs_dumpMembers_append _ (by simp) _]
        rw [ih (by simp) (fun kv hkv => hval kv (by simp [hkv]))
          f (by simp at hf ⊢; omega) rest]
        rfl

theorem jsonLoads_dumpObj (kvs : List (PyStr × PyStr)) (hne : kvs ≠ [])
    (hval : ∀ kv ∈ kvs, ValidStr kv.1 ∧ ValidStr kv.2) :
    jsonLoads (jsonDumps (.jobj kvs)) = .ok (.jobj kvs) := by
  rw [jsonLoads]
  rw [show jsonDumps (.jobj kvs) = 123 :: (dumpMembers kvs ++ [125]) from rfl]
  rw [skipWs_cons_nws 123 _ (by decide)]
  dsimp only
  rw [if_neg (by decide), if_pos rfl]
  rw [skipWs_dumpMembers_append kvs hne [125]]
  obtain ⟨⟨k, v⟩, tl, htl⟩ : ∃ kv tl, kvs = kv :: tl := by
    match kvs, hne with
    | kv :: tl, _ => exact ⟨kv, tl, rfl⟩
  have hshape : dumpMembers kvs ++ [125] =
      34 :: (escapeStr k ++ [34] ++ ([58, 32] ++ strLit v ++
        (if tl.isEmpty then [] else [44, 32]) ++ dumpMembers tl) ++ [125]) := by
    subst htl
    simp [dumpMembers, strLit]
  rw [hshape]
  dsimp only
  rw [if_neg (by decide)]
  rw [← hshape]
  rw [show dumpMembers kvs ++ [125] = dumpMembers kvs ++ 125 :: [] from rfl]
  rw [parseMembers_dumpMembers kvs hne hval _
    (by
      have h1 := dumpMembers_length_ge kvs
      simp only [jsonDumps, List.length_cons, List.length_append]
      omega) []]
  dsimp only
  rw [show skipWs [] = [] from rfl, if_pos rfl]

theorem decode_encode_obj (kvs : List (PyStr × PyStr)) (hne : kvs ≠ [])
    (hval : ∀ kv ∈ kvs, ValidStr kv.1 ∧ ValidStr kv.2) :
    decode_recovery_token (encode_recovery_token (.jobj kvs)) =
      .ok (.jobj kvs) := by
  have hascii : ∀ x ∈ jsonDumps (.jobj kvs), x < 128 := jsonDumps_ascii _
  have henc : utf8Encode (jsonDumps (.jobj kvs)) = jsonDumps (.jobj kvs) :=
    utf8Encode_ascii _ hascii
  rw [encode_recovery_token, henc, decode_recovery_token]
  rw [b64_roundtrip _ (fun b hb => by have := hascii b hb; omega)]
  dsimp only
  rw [utf8Decode_ascii _ hascii]
  dsimp only
  exact jsonLoads_dumpObj kvs hne hval

/-! ## Lemmas: the regex search against the run characterisation -/

theorem dropWhile_length_le (p : Nat → Bool) (l : List Nat) :
    (l.dropWhile p).length ≤ l.length := by
  have h := congrArg List.length (List.takeWhile_append_dropWhile p l)
  simp only [List.length_append] at h
  omega

theorem inRanges_mono (ds ws : List (Nat × Nat))
    (hcov : ds.all (coveredBy ws) = true) (c : Nat)
    (h : inRanges ds c = true) : inRanges ws c = true := by
  simp only [inRanges, List.any_eq_true, Bool.and_eq_true,
    decide_eq_true_eq] at h ⊢
  obtain ⟨r, hr, hc⟩ := h
  simp only [List.all_eq_true] at hcov
  have hcv := hcov r hr
  simp only [coveredBy, List.any_eq_true, Bool.and_eq_true,
    decide_eq_true_eq] at hcv
  obtain ⟨s, hs, hcv2⟩ := hcv
  exact ⟨s, hs, by omega, by omega⟩

/-- Every digit range of the engine lies inside a word range: a decimal
digit is a word character. -/
theorem isWordCp_of_digit (c : Nat) (h : isDigitCp c = true) :
    isWordCp c = true :=
  inRanges_mono uniDigitRanges uniWordRanges (by decide) c h

theorem head_dropWhile_false (p : Nat → Bool) :
    ∀ (l : List Nat) (d : Nat) (tail : List Nat),
      l.dropWhile p = d :: tail → p d = false := by
  intro l
  induction l with
  | nil => intro d tail h; simp [List.dropWhile] at h
  | cons x xs ih =>
    intro d tail h
    rw [List.dropWhile_cons] at h
    split_ifs at h with hx
    · exact ih d tail h
    · cases h
      simpa using hx

theorem tryMatch_nondigit (prev : Option Nat) (c : Nat) (rest : List Nat)
    (h : isDigitCp c = false) : tryMatch prev (c :: rest) = none := by
  have hL : ∀ L, 1 ≤ L → tryLen L (c :: rest) = none := by
    intro L hL1
    match L, hL1 with
    | L + 1, _ =>
      rw [tryLen]
      simp [List.take_succ_cons, h]
  rw [tryMatch]
  split_ifs
  · rw [hL 8 (by omega), hL 7 (by omega), hL 6 (by omega), hL 5 (by omega),
      hL 4 (by omega)]
    rfl
  · rfl

theorem tryMatch_noboundary (prev : Option Nat) (cs : List Nat)
    (h : boundaryBefore isWordCp prev = false) : tryMatch prev cs = none := by
  rw [tryMatch, h]
  rfl

theorem regexSearch_digit_run (ds : List Nat) :
    ∀ (d0 : Nat) (rest2 : List Nat), isDigitCp d0 = true →
      (∀ d ∈ ds, isDigitCp d = true) →
      regexSearch (some d0) (ds ++ rest2) =
        regexSearch (some (ds.getLastD d0)) rest2 := by
  induction ds with
  | nil => intro d0 rest2 _ _; simp [List.getLastD_nil]
  | cons d ds ih =>
    intro d0 rest2 hd0 hall
    rw [List.cons_append, regexSearch]
    rw [tryMatch_noboundary _ _ (by
      simp [boundaryBefore, isWordCp_of_digit d0 hd0])]
    dsimp only
    rw [ih d rest2 (hall d (by simp)) (fun x hx => hall x (by simp [hx])),
      List.getLastD_cons]

theorem tryLen_short (run rest2 : List Nat) (L : Nat)
    (hall : ∀ d ∈ run, isDigitCp d = true) (hL : L < run.length) :
    tryLen L (run ++ rest2) = none := by
  rw [tryLen]
  rw [List.take_append_of_le_length (by omega)]
  rw [List.drop_append_of_le_length (by omega)]
  cases hdrop : run.drop L with
  | nil =>
    have := congrArg List.length hdrop
    simp only [List.length_drop, List.length_nil] at this
    omega
  | cons d tail =>
    have hd : d ∈ run := List.drop_subset L run (by rw [hdrop]; simp)
    have hw : isWordCp d = true := isWordCp_of_digit d (hall d hd)
    simp [boundaryAfter, hw]

theorem tryLen_exact (run rest2 : List Nat)
    (hall : ∀ d ∈ run, isDigitCp d = true) :
    tryLen run.length (run ++ rest2) =
      (if boundaryAfter isWordCp rest2 then some run else none) := by
  rw [tryLen, List.take_left, List.drop_left]
  have hallb : run.all isDigitCp = true := List.all_eq_true.mpr hall
  by_cases hba : boundaryAfter isWordCp rest2
  · simp [hallb, hba]
  · simp [hallb, hba]

theorem tryLen_long (run rest2 : List Nat) (L : Nat)
    (hrest : ∀ d ∈ rest2.take 1, isDigitCp d = false)
    (hL : run.length < L) :
    tryLen L (run ++ rest2) = none := by
  rw [tryLen]
  cases rest2 with
  | nil =>
    have : (run ++ ([] : List Nat)).take L = run := by
      simp only [List.append_nil]
      exact List.take_of_length_le (by omega)
    rw [this]
    simp only [List.append_nil]
    have : (run.length = L) = False := by simp; omega
    simp [this]
  | cons r rs =>
    have hr : isDigitCp r = false := hrest r (by simp)
    have hsplit : (run ++ r :: rs).take L = run ++ (r :: rs).take (L - run.length) := by
      have hLs : L = run.length + (L - run.length) := by omega
      conv_lhs => rw [hLs, List.take_append]
    rw [hsplit]
    have hmem : r ∈ run ++ (r :: rs).take (L - run.length) := by
      have : L - run.length ≥ 1 := by omega
      match hLr : L - run.length, this with
      | n + 1, _ => simp [List.take_succ_cons]
    have : (run ++ (r :: rs).take (L - run.length)).all isDigitCp = false := by
      rw [List.all_eq_false]
      exact ⟨r, hmem, by simp [hr]⟩
    simp [this]

theorem tryMatch_run (prev : Option Nat) (run rest2 : List Nat)
    (hne : run ≠ []) (hall : ∀ d ∈ run, isDigitCp d = true)
    (hb : boundaryBefore isWordCp prev = true)
    (hrest : ∀ d ∈ rest2.take 1, isDigitCp d = false) :
    tryMatch prev (run ++ rest2) =
      (if 4 ≤ run.length ∧ run.length ≤ 8 ∧ boundaryAfter isWordCp rest2 = true
       then some run else none) := by
  have hn1 : 1 ≤ run.length := by
    cases run with
    | nil => exact absurd rfl hne
    | cons x xs => simp
  rw [tryMatch, if_pos hb]
  by_cases h48 : 4 ≤ run.length ∧ run.length ≤ 8
  · obtain ⟨h4, h8⟩ := h48
    have hcases : run.length = 4 ∨ run.length = 5 ∨ run.length = 6 ∨
        run.length = 7 ∨ run.length = 8 := by omega
    by_cases hba : boundaryAfter isWordCp rest2 = true
    · rcases hcases with hn | hn | hn | hn | hn <;>
        · rw [show (8 : Nat) = 8 from rfl]
          first
          | (rw [show tryLen 8 (run ++ rest2) = some run from by
                rw [← hn]; rw [tryLen_exact run rest2 hall, if_pos hba]]
             simp [Option.orElse, h4, h8, hba])
          | (rw [tryLen_long run rest2 8 hrest (by omega)]
             first
             | (rw [show tryLen 7 (run ++ rest2) = some run from by
                   rw [← hn]; rw [tryLen_exact run rest2 hall, if_pos hba]]
                simp [Option.orElse, h4, h8, hba])
             | (rw [tryLen_long run rest2 7 hrest (by omega)]
                first
                | (rw [show tryLen 6 (run ++ rest2) = some run from by
                      rw [← hn]; rw [tryLen_exact run rest2 hall, if_pos hba]]
                   simp [Option.orElse, h4, h8, hba])
                | (rw [tryLen_long run rest2 6 hrest (by omega)]
                   first
                   | (rw [show tryLen 5 (run ++ rest2) = some run from by
                         rw [← hn]; rw [tryLen_exact run rest2 hall, if_pos hba]]
                      simp [Option.orElse, h4, h8, hba])
                   | (rw [tryLen_long run rest2 5 hrest (by omega)]
                      rw [show tryLen 4 (run ++ rest2) = some run from by
                        rw [← hn]; rw [tryLen_exact run rest2 hall, if_pos hba]]
                      simp [Option.orElse, h4, h8, hba]))))
    · have hba' : boundaryAfter isWordCp rest2 = false := by
        cases h : boundaryAfter isWordCp rest2
        · rfl
        · exact absurd h hba
      have hEx : ∀ L, L = run.length →
          tryLen L (run ++ rest2) = none := by
        intro L hL
        rw [hL, tryLen_exact run rest2 hall, hba']
        simp
      have hAny : ∀ L, 4 ≤ L → L ≤ 8 → tryLen L (run ++ rest2) = none := by
        intro L hL4 hL8
        rcases Nat.lt_trichotomy L run.length with h | h | h
        · exact tryLen_short run rest2 L hall h
        · exact hEx L h
        · exact tryLen_long run rest2 L hrest h
      rw [hAny 8 (by omega) (by omega), hAny 7 (by omega) (by omega),
        hAny 6 (by omega) (by omega), hAny 5 (by omega) (by omega),
        hAny 4 (by omega) (by omega)]
      simp [Option.orElse, hba']
  · have hAny : ∀ L, 4 ≤ L → L ≤ 8 → tryLen L (run ++ rest2) = none := by
      intro L hL4 hL8
      rcases Nat.lt_trichotomy L run.length with h | h | h
      · exact tryLen_short run rest2 L hall h
      · omega
      · exact tryLen_long run rest2 L hrest h
    rw [hAny 8 (by omega) (by omega), hAny 7 (by omega) (by omega),
      hAny 6 (by omega) (by omega), hAny 5 (by omega) (by omega),
      hAny 4 (by omega) (by omega)]
    rw [if_neg (fun hc => h48 ⟨hc.1, hc.2.1⟩)]
    rfl

theorem tryMatch_nil (prev : Option Nat) : tryMatch prev [] = none := by
  have h0 : ∀ L, 1 ≤ L → tryLen L ([] : List Nat) = none := by
    intro L h
    match L, h with
    | L + 1, _ => rw [tryLen]; simp
  rw [tryMatch]
  split_ifs
  · rw [h0 8 (by omega), h0 7 (by omega), h0 6 (by omega), h0 5 (by omega),
      h0 4 (by omega)]
    rfl
  · rfl

theorem regexSearch_eq_specScan :
    ∀ N cs, List.length cs ≤ N → ∀ prev fuel, List.length cs < fuel →
      regexSearch prev cs = specScan isWordCp fuel prev cs := by
  intro N
  induction N using Nat.strong_induction_on with
  | _ N ih =>
    intro cs hcs prev fuel hfuel
    match cs, fuel, hfuel with
    | [], f + 1, _ =>
      rw [regexSearch, tryMatch_nil]
      rfl
    | c :: rest, f + 1, hf =>
      by_cases hd : isDigitCp c = true
      · have hrun_cons : List.takeWhile isDigitCp (c :: rest) =
            c :: List.takeWhile isDigitCp rest := by
          simp [List.takeWhile_cons, hd]
        have hdrop_cons : List.dropWhile isDigitCp (c :: rest) =
            List.dropWhile isDigitCp rest := by
          simp [List.dropWhile_cons, hd]
        have hcat : List.takeWhile isDigitCp (c :: rest) ++
            List.dropWhile isDigitCp (c :: rest) = c :: rest :=
          List.takeWhile_append_dropWhile isDigitCp (c :: rest)
        have hall : ∀ d ∈ List.takeWhile isDigitCp (c :: rest),
            isDigitCp d = true := fun d hdm => List.mem_takeWhile_imp hdm
        have hrest1 : ∀ d ∈ (List.dropWhile isDigitCp (c :: rest)).take 1,
            isDigitCp d = false := by
          intro d hdm
          cases hdw : List.dropWhile isDigitCp (c :: rest) with
          | nil => rw [hdw] at hdm; simp at hdm
          | cons x t =>
            rw [hdw] at hdm
            simp only [List.take_succ_cons, List.take_zero,
              List.mem_singleton] at hdm
            subst hdm
            exact head_dropWhile_false isDigitCp (c :: rest) d t hdw
        have hlenrun : 1 ≤ (List.takeWhile isDigitCp (c :: rest)).length := by
          rw [hrun_cons]; simp
        have hlen2 : (List.dropWhile isDigitCp (c :: rest)).length ≤
            rest.length := by
          have := congrArg List.length hcat
          simp only [List.length_append, List.length_cons] at this
          omega
        have hwalk : regexSearch (some c) rest =
            specScan isWordCp f
              (some ((List.takeWhile isDigitCp (c :: rest)).getLastD c))
              (List.dropWhile isDigitCp (c :: rest)) := by
          have hrsplit : List.takeWhile isDigitCp rest ++
              List.dropWhile isDigitCp (c :: rest) = rest := by
            rw [hdrop_cons]
            exact List.takeWhile_append_dropWhile isDigitCp rest
          conv_lhs => rw [← hrsplit]
          rw [regexSearch_digit_run (List.takeWhile isDigitCp rest) c
            (List.dropWhile isDigitCp (c :: rest)) hd
            (fun x hx => List.mem_takeWhile_imp hx)]
          rw [hrun_cons, List.getLastD_cons]
          apply ih (List.dropWhile isDigitCp (c :: rest)).length
            (by simp only [List.length_cons] at hcs; omega) _ le_rfl
          simp only [List.length_cons] at hf
          omega
        by_cases hb : boundaryBefore isWordCp prev = true
        · have htm : tryMatch prev (c :: rest) =
              (if 4 ≤ (List.takeWhile isDigitCp (c :: rest)).length ∧
                  (List.takeWhile isDigitCp (c :: rest)).length ≤ 8 ∧
                  boundaryAfter isWordCp
                    (List.dropWhile isDigitCp (c :: rest)) = true
               then some (List.takeWhile isDigitCp (c :: rest)) else none) := by
            conv_lhs => rw [← hcat]
            exact tryMatch_run prev _ _
              (by intro hnil; rw [hnil] at hlenrun; simp at hlenrun)
              hall hb hrest1
          rw [regexSearch, htm, specScan, if_pos hd]
          by_cases hcond : 4 ≤ (List.takeWhile isDigitCp (c :: rest)).length ∧
              (List.takeWhile isDigitCp (c :: rest)).length ≤ 8 ∧
              boundaryAfter isWordCp (List.dropWhile isDigitCp (c :: rest)) = true
          · rw [if_pos hcond]
            dsimp only
            rw [if_pos (by
              rw [hb]
              simp only [Bool.true_and, Bool.and_eq_true, decide_eq_true_eq]
              exact ⟨⟨hcond.1, hcond.2.1⟩, hcond.2.2⟩)]
          · rw [if_neg hcond]
            dsimp only
            rw [if_neg (by
              rw [hb]
              simp only [Bool.true_and, Bool.and_eq_true, decide_eq_true_eq]
              intro hc
              exact hcond ⟨hc.1.1, hc.1.2, hc.2⟩)]
            exact hwalk
        · have hbf : boundaryBefore isWordCp prev = false := by
            cases hx : boundaryBefore isWordCp prev
            · rfl
            · exact absurd hx hb
          rw [regexSearch, tryMatch_noboundary prev _ hbf]
          dsimp only
          rw [specScan, if_pos hd]
          rw [if_neg (by rw [hbf]; simp)]
          exact hwalk
      · have hdf : isDigitCp c = false := by
          cases hx : isDigitCp c
          · rfl
          · exact absurd hx hd
        rw [regexSearch, tryMatch_nondigit prev c rest hdf]
        dsimp only
        rw [specScan, if_neg hd]
        apply ih rest.length (by simp only [List.length_cons] at hcs; omega)
          _ le_rfl
        simp only [List.length_cons] at hf
        omega

/-! ## Lemmas: the `read` trace -/

theorem countRelays_append (a b : List Event) :
    countRelays (a ++ b) = countRelays a + countRelays b := by
  simp [countRelays, List.filter_append]

theorem countRelays_readLoop (fullOf fmtOk fallbackOk : Nat → Bool) :
    ∀ l : List Nat, countRelays (readLoop fullOf fmtOk fallbackOk l) ≤ l.length := by
  intro l
  induction l with
  | nil => simp [readLoop, countRelays]
  | cons m rest ih =>
    rw [readLoop, processMsg]
    by_cases h1 : fullOf m = true
    · rw [if_pos h1]
      by_cases h2 : fmtOk m = true
      · rw [if_pos h2]
        dsimp only
        rw [if_pos rfl, countRelays_append]
        have hc : countRelays [Event.readMsg m, Event.sendFmt m true,
          Event.deleteMsg m] = 1 := by simp [countRelays, isRelayAny]
        rw [hc]
        simp only [List.length_cons]
        omega
      · rw [if_neg h2]
        by_cases h3 : fallbackOk m = true
        · rw [if_pos h3]
          dsimp only
          rw [if_pos rfl, countRelays_append]
          have hc : countRelays [Event.readMsg m, Event.sendFmt m false,
            Event.sendPlain m true, Event.deleteMsg m] = 1 := by
            simp [countRelays, isRelayAny]
          rw [hc]
          simp only [List.length_cons]
          omega
        · rw [if_neg h3]
          dsimp only
          rw [if_neg (by decide)]
          have hc : countRelays [Event.readMsg m, Event.sendFmt m false,
            Event.sendPlain m false] = 0 := by simp [countRelays, isRelayAny]
          rw [hc]
          simp
    · rw [if_neg h1]
      dsimp only
      rw [if_pos rfl, countRelays_append]
      have hc : countRelays [Event.readMsg m] = 0 := by
        simp [countRelays, isRelayAny]
      rw [hc]
      simp only [List.length_cons]
      omega

theorem readLoop_relay_decomp (fullOf fmtOk fallbackOk : Nat → Bool) :
    ∀ (l : List Nat) (id : Nat),
      relayedIn (readLoop fullOf fmtOk fallbackOk l) id →
      id ∈ l ∧ ∃ p1 e p2, readLoop fullOf fmtOk fallbackOk l = p1 ++ e :: p2 ∧
        isRelay id e = true ∧ Event.readMsg id ∈ p1 ∧
        Event.deleteMsg id ∈ p2 := by
  intro l
  induction l with
  | nil =>
    intro id h
    obtain ⟨e, hmem, _⟩ := h
    simp [readLoop] at hmem
  | cons m rest ih =>
    intro id h
    rw [readLoop, processMsg] at h ⊢
    by_cases h1 : fullOf m = true
    · rw [if_pos h1] at h ⊢
      by_cases h2 : fmtOk m = true
      · rw [if_pos h2] at h ⊢
        dsimp only at h ⊢
        rw [if_pos rfl] at h ⊢
        obtain ⟨e, hmem, hrel⟩ := h
        rw [List.cons_append, List.cons_append, List.cons_append,
          List.nil_append] at hmem
        simp only [List.mem_cons] at hmem
        rcases hmem with he | he | he | he
        · subst he; simp [isRelay] at hrel
        · subst he
          have hm : m = id := by simpa [isRelay] using hrel
          subst hm
          refine ⟨by simp, [Event.readMsg m], Event.sendFmt m true,
            Event.deleteMsg m :: readLoop fullOf fmtOk fallbackOk rest,
            by simp, hrel, by simp, by simp⟩
        · subst he; simp [isRelay] at hrel
        · obtain ⟨hid, p1, e2, p2, heq, hrel2, hread, hdel⟩ :=
            ih id ⟨e, he, hrel⟩
          refine ⟨by simp [hid], Event.readMsg m :: Event.sendFmt m true ::
            Event.deleteMsg m :: p1, e2, p2, ?_, hrel2, by simp [hread],
            hdel⟩
          simp [heq]
      · rw [if_neg h2] at h ⊢
        by_cases h3 : fallbackOk m = true
        · rw [if_pos h3] at h ⊢
          dsimp only at h ⊢
          rw [if_pos rfl] at h ⊢
          obtain ⟨e, hmem, hrel⟩ := h
          rw [List.cons_append, List.cons_append, List.cons_append,
            List.cons_append, List.nil_append] at hmem
          simp only [List.mem_cons] at hmem
          rcases hmem with he | he | he | he | he
          · subst he; simp [isRelay] at hrel
          · subst he; simp [isRelay] at hrel
          · subst he
            have hm : m = id := by simpa [isRelay] using hrel
            subst hm
            refine ⟨by simp, [Event.readMsg m, Event.sendFmt m false],
              Event.sendPlain m true,
              Event.deleteMsg m :: readLoop fullOf fmtOk fallbackOk rest,
              by simp, hrel, by simp, by simp⟩
          · subst he; simp [isRelay] at hrel
          · obtain ⟨hid, p1, e2, p2, heq, hrel2, hread, hdel⟩ :=
              ih id ⟨e, he, hrel⟩
            refine ⟨by simp [hid], Event.readMsg m :: Event.sendFmt m false ::
              Event.sendPlain m true :: Event.deleteMsg m :: p1, e2, p2, ?_,
              hrel2, by simp [hread], hdel⟩
            simp [heq]
        · rw [if_neg h3] at h ⊢
          dsimp only at h ⊢
          rw [if_neg (by decide)] at h ⊢
          obtain ⟨e, hmem, hrel⟩ := h
          simp only [List.mem_cons, List.not_mem_nil, or_false] at hmem
          rcases hmem with he | he | he <;> subst he <;>
            simp [isRelay] at hrel
    · rw [if_neg h1] at h ⊢
      dsimp only at h ⊢
      rw [if_pos rfl] at h ⊢
      obtain ⟨e, hmem, hrel⟩ := h
      rw [List.cons_append, List.nil_append] at hmem
      simp only [List.mem_cons] at hmem
      rcases hmem with he | he
      · subst he; simp [isRelay] at hrel
      · obtain ⟨hid, p1, e2, p2, heq, hrel2, hread, hdel⟩ :=
          ih id ⟨e, he, hrel⟩
        refine ⟨by simp [hid], Event.readMsg m :: p1, e2, p2, ?_, hrel2,
          by simp [hread], hdel⟩
        simp [heq]

theorem fallbackDiscipline_tail (e : Event) (tr : List Event)
    (h : fallbackDiscipline (e :: tr)) : fallbackDiscipline tr := by
  match e with
  | .readMsg i => exact h
  | .sendFmt i true => exact h
  | .sendFmt i false => exact h.2
  | .sendPlain i b => exact h
  | .deleteMsg i => exact h

theorem fallbackDiscipline_decomp :
    ∀ (pre : List Event) (tr : List Event), fallbackDiscipline tr →
      ∀ (id : Nat) (post : List Event),
        tr = pre ++ Event.sendFmt id false :: post →
        ∃ b rest2, post = Event.sendPlain id b :: rest2 ∧
          (b = false → rest2 = []) := by
  intro pre
  induction pre with
  | nil =>
    intro tr htr id post heq
    subst heq
    simp only [List.nil_append] at htr
    exact htr.1
  | cons a pre ih =>
    intro tr htr id post heq
    subst heq
    rw [List.cons_append] at htr
    exact ih _ (fallbackDiscipline_tail a _ htr) id post rfl

theorem fallbackDiscipline_readLoop (fullOf fmtOk fallbackOk : Nat → Bool) :
    ∀ l : List Nat, fallbackDiscipline (readLoop fullOf fmtOk fallbackOk l) := by
  intro l
  induction l with
  | nil => trivial
  | cons m rest ih =>
    rw [readLoop, processMsg]
    by_cases h1 : fullOf m = true
    · rw [if_pos h1]
      by_cases h2 : fmtOk m = true
      · rw [if_pos h2]
        dsimp only
        rw [if_pos rfl]
        exact ih
      · rw [if_neg h2]
        by_cases h3 : fallbackOk m = true
        · rw [if_pos h3]
          dsimp only
          rw [if_pos rfl]
          exact ⟨⟨true, _, rfl, by simp⟩, ih⟩
        · rw [if_neg h3]
          dsimp only
          rw [if_neg (by decide)]
          exact ⟨⟨false, [], rfl, fun _ => rfl⟩, trivial⟩
    · rw [if_neg h1]
      dsimp only
      rw [if_pos rfl]
      exact ih

/-! ## The claims -/

/-- C1: for every valid session record (all three fields non-empty
strings, unicode and punctuation included), decoding the encoded
recovery token returns exactly the record. -/
theorem decode_encode_roundtrip (r : SessionRecord) (h : ValidRecord r) :
    decode_recovery_token (encode_recovery_token (recordToJson r)) =
      .ok (recordToJson r) := by
  obtain ⟨_, _, _, hve, hvp, hvt⟩ := h
  rw [recordToJson]
  apply decode_encode_obj _ (by simp)
  intro kv hkv
  simp only [List.mem_cons, List.not_mem_nil, or_false] at hkv
  rcases hkv with hkv | hkv | hkv <;> subst hkv
  · exact ⟨show ValidStr (ascii "email") by decide, hve⟩
  · exact ⟨show ValidStr (ascii "password") by decide, hvp⟩
  · exact ⟨show ValidStr (ascii "token") by decide, hvt⟩

/-- Witness for C1 at the session record of the repository's test
suite. -/
theorem decode_encode_roundtrip_witness :
    ValidRecord ⟨ascii "test@example.com", ascii "pass", ascii "jwt"⟩ ∧
    decode_recovery_token (encode_recovery_token (recordToJson
      ⟨ascii "test@example.com", ascii "pass", ascii "jwt"⟩)) =
      .ok (recordToJson ⟨ascii "test@example.com", ascii "pass", ascii "jwt"⟩) :=
  ⟨by decide, decode_encode_roundtrip _ (by decide)⟩

/-- C2: token decoding is total — every input yields a session value or
one of the two error kinds, the sample garbage input yields
`malformedToken`, and `repair` converts any decode error into the
user-facing invalid-token rejection. -/
theorem decode_never_faults :
    (∀ tok : PyStr, (∃ j, decodeAndValidate tok = .ok j) ∨
      decodeAndValidate tok = .error .malformedToken ∨
      decodeAndValidate tok = .error .missingField) ∧
    decodeAndValidate (ascii "not base64 or json") = .error .malformedToken ∧
    (∀ (st : Store) (u : Nat) (tok : PyStr) (rOk : Bool) (e : DecodeError),
      decodeAndValidate tok = .error e →
      repair st u [tok] rOk = (st, .invalidToken)) := by
  refine ⟨?_, by decide, ?_⟩
  · intro tok
    match h : decodeAndValidate tok with
    | .ok j => exact Or.inl ⟨j, rfl⟩
    | .error .malformedToken => exact Or.inr (Or.inl rfl)
    | .error .missingField => exact Or.inr (Or.inr rfl)
  · intro st u tok rOk e h
    rw [repair]
    rw [h]

/-- Witness for C2 at the sample garbage input. -/
theorem decode_never_faults_witness :
    repair emptyStore 1 [ascii "not base64 or json"] true =
      (emptyStore, Reply.invalidToken) :=
  decode_never_faults.2.2 emptyStore 1 (ascii "not base64 or json") true
    .malformedToken (by decide)

/-- C3 counterexample: the token of a record whose three fields are all
empty decodes and is accepted by the validation (stored as a session),
not rejected with `missingField` — the code checks only key presence,
never emptiness. -/
theorem empty_values_accepted :
    decodeAndValidate (encode_recovery_token (recordToJson ⟨[], [], []⟩)) =
      .ok (recordToJson ⟨[], [], []⟩) ∧
    decodeAndValidate (encode_recovery_token (recordToJson ⟨[], [], []⟩)) ≠
      .error .missingField := by
  have hdec : decode_recovery_token (encode_recovery_token
      (recordToJson ⟨[], [], []⟩)) = .ok (recordToJson ⟨[], [], []⟩) := by
    rw [recordToJson]
    apply decode_encode_obj _ (by simp)
    intro kv hkv
    simp only [List.mem_cons, List.not_mem_nil, or_false] at hkv
    rcases hkv with hkv | hkv | hkv <;> subst hkv
    · exact ⟨show ValidStr (ascii "email") by decide,
        by intro c hc; simp at hc⟩
    · exact ⟨show ValidStr (ascii "password") by decide,
        by intro c hc; simp at hc⟩
    · exact ⟨show ValidStr (ascii "token") by decide,
        by intro c hc; simp at hc⟩
  have hok : decodeAndValidate (encode_recovery_token
      (recordToJson ⟨[], [], []⟩)) = .ok (recordToJson ⟨[], [], []⟩) := by
    rw [decodeAndValidate, hdec]
    dsimp only
    rw [if_pos (by decide)]
  exact ⟨hok, by rw [hok]; intro hcontra; cases hcontra⟩

/-- C3 (amended): a token that decodes to a structured record in which
any of the three required keys is absent fails with `missingField`
(distinct from `malformedToken`); values are not inspected, so records
with all three keys present are accepted even when the values are
empty.  In particular the token of `{"email": "a"}` yields
`missingField`. -/
theorem missing_key_rejected :
    (∀ (tok : PyStr) (kvs : List (PyStr × PyStr)),
      decode_recovery_token tok = .ok (.jobj kvs) →
      ¬(pyIn (ascii "email") (.jobj kvs) = true ∧
        pyIn (ascii "password") (.jobj kvs) = true ∧
        pyIn (ascii "token") (.jobj kvs) = true) →
      decodeAndValidate tok = .error .missingField) ∧
    decodeAndValidate
      (encode_recovery_token (.jobj [(ascii "email", ascii "a")])) =
      .error .missingField := by
  constructor
  · intro tok kvs hdec hkeys
    rw [decodeAndValidate, hdec]
    dsimp only
    rw [if_neg (by
      intro hk
      apply hkeys
      rw [hasRequiredKeys] at hk
      simp only [Bool.and_eq_true] at hk
      exact ⟨hk.1.1, hk.1.2, hk.2⟩)]
  · decide

/-- Witness for C3 (amended) at the single-key token of the claim. -/
theorem missing_key_rejected_witness :
    decodeAndValidate
      (encode_recovery_token (.jobj [(ascii "email", ascii "a")])) =
      .error .missingField :=
  missing_key_rejected.1 _ [(ascii "email", ascii "a")] (by decide) (by decide)

/-- C4 counterexample: the recovery token of a valid session record can
contain the padding character `=` (code 61), which is not a member of
the URL-safe alphabet. -/
theorem token_padding_cex :
    ValidRecord ⟨ascii "a", ascii "b", ascii "cc"⟩ ∧
    61 ∈ encode_recovery_token (recordToJson ⟨ascii "a", ascii "b", ascii "cc"⟩) ∧
    isB64Alpha 61 = false := by
  decide

/-- C4 (amended): every recovery token splits into a body of URL-safe
alphabet characters followed by zero, one or two trailing `=` padding
characters. -/
theorem token_urlsafe_plus_padding (data : Json) :
    ∃ body pad, encode_recovery_token data = body ++ pad ∧
      (∀ c ∈ body, isB64Alpha c = true) ∧
      (pad = [] ∨ pad = [61] ∨ pad = [61, 61]) :=
  b64encode_pad _

/-- The character classes are the engine's Unicode tables, not an ASCII
restriction: U+00E9 (é) is a word character, so no boundary precedes the
digits of "é1234" and the search fails, while the Arabic-Indic digits
U+0661 to U+0664 match the digit class and their run is returned. -/
theorem detect_otp_unicode_classes :
    isWordCp 233 = true ∧ isDigitCp 1633 = true ∧
    detect_otp (233 :: ascii "1234") = none ∧
    detect_otp [1633, 1634, 1635, 1636] = some [1633, 1634, 1635, 1636] := by
  decide

/-- C5 counterexample: at `"a1234"` the regex (word boundaries) finds
nothing, while the claim's reading (digit runs bounded by non-digits or
edges) selects `"1234"`. -/
theorem otp_boundary_cex :
    detect_otp (ascii "a1234") = none ∧
    spec_otp_digit (ascii "a1234") = some (ascii "1234") := by
  decide

/-- C5 (amended): `detect_otp` returns the first maximal run of 4 to 8
decimal digits bounded by non-word characters (the Unicode alphanumeric
code points and the underscore are word characters, and the digits are
Unicode category Nd, as in the regex engine) or the string edges, and
`none` when no such run exists. -/
theorem detect_otp_eq_word_bounded (text : PyStr) :
    detect_otp text = spec_otp_word text := by
  rw [detect_otp, spec_otp_word]
  by_cases h : text.isEmpty
  · rw [if_pos h]
    have htext : text = [] := by
      cases text
      · rfl
      · simp at h
    subst htext
    rfl
  · rw [if_neg h]
    exact regexSearch_eq_specScan text.length text le_rfl none
      (text.length + 1) (by omega)

/-- C6: when `repair` is given a token on which decoding or validation
fails (either error kind), the failure is reported as an invalid token
and the session store is returned unchanged. -/
theorem repair_error_leaves_store (st : Store) (u : Nat) (tok : PyStr)
    (rOk : Bool) (e : DecodeError)
    (h : decodeAndValidate tok = .error e) :
    repair st u [tok] rOk = (st, Reply.invalidToken) := by
  rw [repair]
  rw [h]

/-- Witness for C6: a malformed token leaves a populated store
untouched. -/
theorem repair_error_leaves_store_witness :
    repair (putSession emptyStore 7 (Json.jstr (ascii "old"))) 7
      [ascii "x"] true =
      (putSession emptyStore 7 (Json.jstr (ascii "old")),
        Reply.invalidToken) :=
  repair_error_leaves_store _ 7 (ascii "x") true .malformedToken (by decide)

/-- C7: with an active session and a non-empty inbox, `read` relays at
most five messages, every relayed message is among the first five
listed, and each relayed message is read from the provider before the
relay and deleted from the provider after it. -/
theorem read_bounded_and_deleted (st : Store) (u : Nat) (sess : Json)
    (msgs : List Nat) (fullOf fmtOk fallbackOk : Nat → Bool)
    (hs : getSession st u = some sess) (hm : msgs ≠ []) :
    countRelays (readCommand st u msgs fullOf fmtOk fallbackOk) ≤ 5 ∧
    (∀ id, relayedIn (readCommand st u msgs fullOf fmtOk fallbackOk) id →
      id ∈ msgs.take 5 ∧
      ∃ p1 e p2, readCommand st u msgs fullOf fmtOk fallbackOk =
        p1 ++ e :: p2 ∧ isRelay id e = true ∧ Event.readMsg id ∈ p1 ∧
        Event.deleteMsg id ∈ p2) := by
  rw [readCommand, hs]
  constructor
  · calc countRelays (readLoop fullOf fmtOk fallbackOk (msgs.take 5)) ≤
        (msgs.take 5).length := countRelays_readLoop fullOf fmtOk fallbackOk _
      _ ≤ 5 := by
        rw [List.length_take]
        omega
  · intro id h
    exact readLoop_relay_decomp fullOf fmtOk fallbackOk (msgs.take 5) id h

/-- Witness for C7: one message, read, relayed and deleted. -/
theorem read_bounded_and_deleted_witness :
    countRelays (readCommand (putSession emptyStore 3 (Json.jstr [])) 3 [0]
      (fun _ => true) (fun _ => true) (fun _ => true)) ≤ 5 ∧
    (∀ id, relayedIn (readCommand (putSession emptyStore 3 (Json.jstr [])) 3
      [0] (fun _ => true) (fun _ => true) (fun _ => true)) id →
      id ∈ ([0] : List Nat).take 5 ∧
      ∃ p1 e p2, readCommand (putSession emptyStore 3 (Json.jstr [])) 3 [0]
        (fun _ => true) (fun _ => true) (fun _ => true) =
        p1 ++ e :: p2 ∧ isRelay id e = true ∧ Event.readMsg id ∈ p1 ∧
        Event.deleteMsg id ∈ p2) :=
  read_bounded_and_deleted (putSession emptyStore 3 (Json.jstr [])) 3
    (Json.jstr []) [0] (fun _ => true) (fun _ => true) (fun _ => true)
    (by decide) (by decide)

/-- C8: whenever the trace of `read` contains a failed formatted send,
the immediately following event is the single plain fallback attempt,
and a failed fallback ends the trace (the loop aborts, so there is no
second retry and no silent drop). -/
theorem fmt_fail_one_fallback (st : Store) (u : Nat) (msgs : List Nat)
    (fullOf fmtOk fallbackOk : Nat → Bool) (id : Nat)
    (pre post : List Event)
    (h : readCommand st u msgs fullOf fmtOk fallbackOk =
      pre ++ Event.sendFmt id false :: post) :
    ∃ b rest2, post = Event.sendPlain id b :: rest2 ∧
      (b = false → rest2 = []) := by
  have hdisc : fallbackDiscipline
      (readCommand st u msgs fullOf fmtOk fallbackOk) := by
    rw [readCommand]
    cases hsess : getSession st u with
    | none => trivial
    | some s => exact fallbackDiscipline_readLoop fullOf fmtOk fallbackOk _
  exact fallbackDiscipline_decomp pre _ hdisc id post h

/-- Witness for C8: a failed formatted send followed by the successful
plain fallback. -/
theorem fmt_fail_one_fallback_witness :
    ∃ b rest2, [Event.sendPlain 0 true, Event.deleteMsg 0] =
      Event.sendPlain 0 b :: rest2 ∧ (b = false → rest2 = []) :=
  fmt_fail_one_fallback (putSession emptyStore 3 (Json.jstr [])) 3 [0]
    (fun _ => true) (fun _ => false) (fun _ => true) 0 [Event.readMsg 0]
    [Event.sendPlain 0 true, Event.deleteMsg 0] (by decide)

/-- C9: writes to the session store are per-key — a put is read back by
the same key, leaves every other key unchanged, and a key never written
reads back as absent. -/
theorem session_store_laws (st : Store) (A B : Nat) (s : Json) :
    getSession (putSession st A s) A = some s ∧
    (A ≠ B → getSession (putSession st A s) B = getSession st B) ∧
    (∀ ops : List (Nat × Json), (∀ op ∈ ops, op.1 ≠ B) →
      getSession (applyPuts emptyStore ops) B = none) := by
  refine ⟨?_, ?_, ?_⟩
  · unfold getSession putSession
    rw [if_pos rfl]
  · intro hAB
    unfold getSession putSession
    rw [if_neg (Ne.symm hAB)]
  · have general : ∀ (ops : List (Nat × Json)) (st0 : Store),
        (∀ op ∈ ops, op.1 ≠ B) → getSession st0 B = none →
        getSession (applyPuts st0 ops) B = none := by
      intro ops
      induction ops with
      | nil => intro st0 _ h0; exact h0
      | cons op rest ih =>
        intro st0 hops h0
        rw [applyPuts, List.foldl_cons]
        rw [show List.foldl (fun s op => putSession s op.1 op.2)
          (putSession st0 op.1 op.2) rest =
          applyPuts (putSession st0 op.1 op.2) rest from rfl]
        apply ih _ (fun o ho => hops o (by simp [ho]))
        unfold getSession putSession
        rw [if_neg (Ne.symm (hops op (by simp)))]
        exact h0
    intro ops hops
    exact general ops emptyStore hops rfl

/-- Witness for C9 at two distinct users. -/
theorem session_store_laws_witness :
    getSession (putSession emptyStore 1 (Json.jstr [])) 1 =
      some (Json.jstr []) ∧
    getSession (putSession emptyStore 1 (Json.jstr [])) 2 = none ∧
    getSession (applyPuts emptyStore [(1, Json.jstr [])]) 2 = none := by
  have h := session_store_laws emptyStore 1 2 (Json.jstr [])
  exact ⟨h.1, (h.2.1 (by decide)).trans rfl,
    h.2.2 [(1, Json.jstr [])] (by decide)⟩

/-- C10: if listing domains fails or returns none, or account creation
or authentication fails, `new_email` leaves the session store exactly
as it was — the store is written only after all provider calls
succeed. -/
theorem new_email_failure_unchanged (st : Store) (u : Nat)
    (dres : Except Unit (List PyStr)) (cres : Except Unit Unit)
    (tres : Except Unit PyStr) (localPart pw : PyStr) (idx : Nat)
    (rOk : Bool)
    (h : dres = .error () ∨ dres = .ok [] ∨ cres = .error () ∨
      tres = .error ()) :
    (newEmail st u dres cres tres localPart pw idx rOk).1 = st := by
  rw [newEmail.eq_def]
  rcases h with h | h | h | h
  · rw [h]
  · rw [h]
    dsimp only
    rw [if_pos (by decide)]
  · cases dres with
    | error e => rfl
    | ok domains =>
      dsimp only
      by_cases hdom : domains.isEmpty = true
      · rw [if_pos hdom]
      · rw [if_neg hdom, h]
  · cases dres with
    | error e => rfl
    | ok domains =>
      dsimp only
      by_cases hdom : domains.isEmpty = true
      · rw [if_pos hdom]
      · rw [if_neg hdom]
        cases cres with
        | error e => rfl
        | ok v =>
          dsimp only
          rw [h]

/-- Witness for C10: a failed domain listing leaves the store
unchanged. -/
theorem new_email_failure_unchanged_witness :
    (newEmail emptyStore 1 (.error ()) (.ok ()) (.ok (ascii "jwt"))
      (ascii "user") (ascii "pw") 0 true).1 = emptyStore :=
  new_email_failure_unchanged emptyStore 1 (.error ()) (.ok ())
    (.ok (ascii "jwt")) (ascii "user") (ascii "pw") 0 true (Or.inl rfl)
